import Mathlib

/-!
# Sponsor inventory and campaign-selection engine: shallow embedding

This file embeds the sponsor-dock core of the repository
(`src/modules/sponsor-dock/server/getInventory.ts`, `src/pages/api/sponsor.ts`,
and the event endpoint) as executable Lean definitions, and proves the
specification claims about it.

The source is JavaScript/TypeScript.  Strings are modelled as Lean `String`
(a list of unicode scalar values); the string primitives the source relies on
(`trim`, `toLowerCase`, `split(",")`, `startsWith`, `slice`, lexicographic
`<` on strings) are given explicit executable models (`jsTrim`, `jsToLower`,
`jsSplitComma`, `jsStarts`, `jsSlice`, `jsLtB`) operating on the underlying
character list, matching the JavaScript semantics on the data that occurs here
(for `jsTrim` only the four common ASCII whitespace characters are modelled,
and `jsToLower` lowers only ASCII letters).  JavaScript truthiness of an
optional string (`undefined` and `""` are falsy) is `jsTruthy`.  Timestamps
(`Date.now()`) are `Int` milliseconds.  A JavaScript `Date` is observed by
this core only through `toISOString()`, so it is modelled by that string.
`Math.random()` is modelled by an explicit parameter `rand : ℚ` with
`0 ≤ rand < 1`.
-/

/-! ## JavaScript string primitives -/

/-- The whitespace characters relevant to `String.prototype.trim` on sheet
data (ASCII space, tab, newline, carriage return). -/
def isJsWs (c : Char) : Bool := c = ' ' || c = '\t' || c = '\n' || c = '\r'

/-- Model of JavaScript `s.trim()`. -/
def jsTrim (s : String) : String :=
  ⟨((s.data.dropWhile isJsWs).reverse.dropWhile isJsWs).reverse⟩

/-- Lower-case a single ASCII letter (model of the case mapping used by
`toLowerCase` on the ASCII status values occurring in the sheets). -/
def lowerChar (c : Char) : Char :=
  if 'A' ≤ c ∧ c ≤ 'Z' then Char.ofNat (c.toNat + 32) else c

/-- Model of JavaScript `s.toLowerCase()` (ASCII). -/
def jsToLower (s : String) : String := ⟨s.data.map lowerChar⟩

/-- Split a character list at every occurrence of `sep` (model of
JavaScript `String.prototype.split` with a one-character separator). -/
def splitCharAux (sep : Char) : List Char → List (List Char)
  | [] => [[]]
  | c :: rest =>
    if c = sep then [] :: splitCharAux sep rest
    else
      match splitCharAux sep rest with
      | h :: t => (c :: h) :: t
      | [] => [[c]]

/-- Model of JavaScript `s.split(",")`. -/
def jsSplitComma (s : String) : List String :=
  (splitCharAux ',' s.data).map (fun l => ⟨l⟩)

/-- Lexicographic comparison of character lists by code point, the order
JavaScript uses for `<` on strings. -/
def lexLtB : List Char → List Char → Bool
  | [], [] => false
  | [], _ :: _ => true
  | _ :: _, [] => false
  | a :: as, b :: bs =>
    if a.toNat < b.toNat then true
    else if b.toNat < a.toNat then false
    else lexLtB as bs

/-- Model of JavaScript `a < b` on strings (lexicographic by code unit). -/
def jsLtB (a b : String) : Bool := lexLtB a.data b.data

/-- Model of JavaScript `s.startsWith(p)`. -/
def jsStarts (s p : String) : Bool := decide (s.data.take p.data.length = p.data)

/-- Model of JavaScript `s.slice(0, n)`. -/
def jsSlice (s : String) (n : Nat) : String := ⟨s.data.take n⟩

/-- Model of JavaScript `s.length`. -/
def jsLen (s : String) : Nat := s.data.length

/-- JavaScript truthiness of a `string | undefined` value: `undefined` and
the empty string are falsy, every other string is truthy. -/
def jsTruthy : Option String → Bool
  | none => false
  | some s => s != ""

/-- Model of the JavaScript idiom `s || undefined`: an empty string is
coerced to an absent value. -/
def orUndef (s : String) : Option String :=
  if s = "" then none else some s

/-! ## Data model (`CampaignRow`, `SiteRow`, `Inventory`) -/

/-- The `"active" | "paused"` status union. -/
inductive Status where
  | active
  | paused
deriving DecidableEq

/-- `CampaignRow` from `getInventory.ts`.  `weight` is the coerced integer
weight (see `coerceWeight`). -/
structure CampaignRow where
  campaign_id : String
  status : Status
  weight : Nat
  brand_name : String
  headline : String
  subline : String
  site_url : String
  logo_url : String
  cta_label : Option String := none
  cta_url : Option String := none
  cta_type : Option String := none
  wa_url : Option String := none
  ig_url : Option String := none
  competitor_group : Option String := none
  target_groups : Option (List String) := none
  start_date : Option String := none
  end_date : Option String := none
deriving DecidableEq

/-- `SiteRow` from `getInventory.ts`. -/
structure SiteRow where
  site_id : String
  status : Status
  blocked_competitor_groups : List String
  groups : List String
deriving DecidableEq

/-- `Inventory`: the unit of caching. -/
structure Inventory where
  campaigns : List CampaignRow
  sites : List SiteRow
deriving DecidableEq

/-- A raw sheet row (`RawRow = Record<string, string>`): a partial map from
header names to (already trimmed) cell strings; absent keys are `none`
(JavaScript `undefined`). -/
def RawRow := String → Option String

/-- A JavaScript `Date`, observed in this core only through `toISOString()`
(an ISO-8601 UTC timestamp string such as `"2025-10-12T08:00:00.000Z"`). -/
structure JsDate where
  iso : String
deriving DecidableEq

/-! ## Field coercion helpers -/

/-- `parseCsvList` from `getInventory.ts`: split a comma-delimited cell,
trim each token and drop empty tokens; a falsy source yields `[]`. -/
def parseCsvList (v : Option String) : List String :=
  if ¬ jsTruthy v then []
  else ((jsSplitComma (v.getD "")).map jsTrim).filter (fun s => s != "")

/-- `asStatus` from `getInventory.ts`: case-insensitive compare of the
trimmed value to `"paused"`; everything else is `"active"`. -/
def asStatus (v : Option String) : Status :=
  if jsToLower (jsTrim (v.getD "")) = "paused" then Status.paused else Status.active

/-- `clampStr` from `getInventory.ts`: trim, then hard-truncate to `max`
characters. -/
def clampStr (v : String) (max : Nat) : String :=
  let s := jsTrim v
  if jsLen s > max then jsSlice s max else s

/-- `isHttpsUrl` from `getInventory.ts`: the trimmed value must start with
the literal prefix scheme `"https://"`. -/
def isHttpsUrl (url : String) : Bool := jsStarts (jsTrim url) "https://"

/-- Value of a decimal digit list. -/
def digitsVal (l : List Char) : Nat := l.foldl (fun n c => 10 * n + (c.toNat - 48)) 0

/-- Model of the JavaScript `Number(s)` coercion on a trimmed string, for
the plain decimal forms occurring in sheet data: `some (n, k)` denotes the
finite value `n / 10 ^ k`, `none` denotes a non-finite result (`NaN`).
The empty string coerces to `0` as in JavaScript.  (Exponent and hexadecimal
literal forms, which never occur in weight cells, are conservatively mapped
to `none`.) -/
def jsNumber (s : String) : Option (Int × Nat) :=
  if s = "" then some (0, 0)
  else
    let signBody : Int × List Char :=
      match s.data with
      | '-' :: rest => (-1, rest)
      | '+' :: rest => (1, rest)
      | l => (1, l)
    match splitCharAux '.' signBody.2 with
    | [ip] =>
      if ip ≠ [] ∧ ip.all Char.isDigit then some (signBody.1 * digitsVal ip, 0) else none
    | [ip, fp] =>
      if (ip ≠ [] ∨ fp ≠ []) ∧ ip.all Char.isDigit ∧ fp.all Char.isDigit then
        some (signBody.1 * digitsVal (ip ++ fp), fp.length)
      else none
    | _ => none

/-- The rational value denoted by a parsed finite JavaScript number. -/
def qOfParsed (p : Int × Nat) : ℚ := (p.1 : ℚ) / ((10 : ℚ) ^ p.2)

/-- `coerceWeight`'s branch on the parsed number: non-finite (`none`) or
`≤ 0` defaults to `1`, otherwise `Math.round` (half-up rounding), computed
integrally as `⌊(2n + d) / 2d⌋` for the value `n / d`, `d = 10 ^ k`. -/
def coerceWeightNum : Option (Int × Nat) → Nat
  | none => 1
  | some (n, k) =>
    if n ≤ 0 then 1 else ((2 * n + (10 : Int) ^ k) / (2 * (10 : Int) ^ k)).toNat

/-- `coerceWeight` from `getInventory.ts`. -/
def coerceWeight (v : Option String) : Nat :=
  coerceWeightNum (jsNumber (jsTrim (v.getD "")))

/-! ## Row mapping -/

/-- `mapCampaign` from `getInventory.ts`: validate and coerce one raw
`network_ads` row, returning `none` when the row is rejected. -/
def mapCampaign (r : RawRow) : Option CampaignRow :=
  if ¬ jsTruthy (r "campaign_id") then none else
  let campaign_id := (r "campaign_id").getD ""
  let brand_name := clampStr ((r "brand_name").getD "") 35
  let headline := clampStr ((r "headline").getD "") 45
  let subline := clampStr ((r "subline").getD "") 75
  let site_url := jsTrim ((r "site_url").getD "")
  let logo_url := jsTrim ((r "logo_url").getD "")
  if brand_name = "" ∨ headline = "" ∨ subline = "" then none else
  if ¬ isHttpsUrl site_url ∨ ¬ isHttpsUrl logo_url then none else
  let cta_label := orUndef (clampStr ((r "cta_label").getD "") 18)
  let cta_url := orUndef (jsTrim ((r "cta_url").getD ""))
  let cta_type := orUndef (jsTrim ((r "cta_type").getD ""))
  if jsTruthy cta_label ∧ (¬ jsTruthy cta_url ∨ ¬ isHttpsUrl (cta_url.getD "")) then none else
  let wa_url := orUndef (jsTrim ((r "wa_url").getD ""))
  if jsTruthy wa_url ∧ ¬ isHttpsUrl (wa_url.getD "") then none else
  let ig_url := orUndef (jsTrim ((r "ig_url").getD ""))
  if jsTruthy ig_url ∧ ¬ isHttpsUrl (ig_url.getD "") then none else
  let competitor_group := orUndef (jsTrim ((r "competitor_group").getD ""))
  let target_groups := parseCsvList (r "target_groups")
  some {
    campaign_id := campaign_id
    status := asStatus (r "status")
    weight := coerceWeight (r "weight")
    brand_name := brand_name
    headline := headline
    subline := subline
    site_url := site_url
    logo_url := logo_url
    cta_label := cta_label
    cta_url := cta_url
    cta_type := cta_type
    wa_url := wa_url
    ig_url := ig_url
    competitor_group := competitor_group
    target_groups := if target_groups.isEmpty then none else some target_groups
    start_date := orUndef (jsTrim ((r "start_date").getD ""))
    end_date := orUndef (jsTrim ((r "end_date").getD "")) }

/-- `mapSite` from `getInventory.ts`. -/
def mapSite (r : RawRow) : Option SiteRow :=
  if ¬ jsTruthy (r "site_id") then none
  else some {
    site_id := (r "site_id").getD ""
    status := asStatus (r "status")
    blocked_competitor_groups := parseCsvList (r "blocked_competitor_groups")
    groups := parseCsvList (r "groups") }

/-- One data row turned into a `RawRow` object: `obj[h] = String(r[idx] ?? "").trim()`
for every header `h` in order (a later duplicate header overwrites an earlier
one, hence the reversed search). -/
def rowToObj (headers : List String) (row : List String) : RawRow :=
  fun key =>
    (((headers.enum.map (fun p => (p.2, jsTrim (row.getD p.1 "")))).reverse.find?
      (fun p => p.1 == key))).map (fun p => p.2)

/-- `sheetRowsToObjects` from `getInventory.ts`: first row is the header row;
data rows that are entirely blank are discarded before mapping. -/
def sheetRowsToObjects (values : List (List String)) : List RawRow :=
  if values.length < 2 then []
  else
    let headers := (values.headD []).map jsTrim
    ((values.drop 1).filter (fun r => r.any (fun cell => jsTrim cell != ""))).map
      (rowToObj headers)

/-- The `Inventory` built from the two fetched grids (`network_ads`,
`network_sites`): rows failing validation are silently dropped. -/
def buildInventory (ads sites : List (List String)) : Inventory :=
  { campaigns := (sheetRowsToObjects ads).filterMap mapCampaign
    sites := (sheetRowsToObjects sites).filterMap mapSite }

/-! ## Campaign selection -/

/-- `now.toISOString().slice(0, 10)`: the current UTC date string
(`YYYY-MM-DD`). -/
def todayStr (now : JsDate) : String := jsSlice now.iso 10

/-- `isWithinDateWindow` from `getInventory.ts`: a missing (or, by JavaScript
falsiness, empty) bound is unbounded on that side; comparisons are
lexicographic string comparisons against the current UTC date string. -/
def isWithinDateWindow (now : JsDate) (startDate endDate : Option String) : Bool :=
  if jsTruthy startDate ∧ jsLtB (todayStr now) (startDate.getD "") then false
  else if jsTruthy endDate ∧ jsLtB (endDate.getD "") (todayStr now) then false
  else true

/-- The eligibility filter of `selectCampaign`: active status, inside the
date window, and not carrying a (truthy) competitor group blocked by the
site. -/
def eligibleB (site : SiteRow) (now : JsDate) (c : CampaignRow) : Bool :=
  if c.status ≠ Status.active then false
  else if ¬ isWithinDateWindow now c.start_date c.end_date then false
  else if jsTruthy c.competitor_group ∧
      (c.competitor_group.getD "") ∈ site.blocked_competitor_groups then false
  else true

/-- `c.weight || 1`: a zero weight falls back to `1`. -/
def effW (c : CampaignRow) : Nat := if c.weight = 0 then 1 else c.weight

/-- `effW` as a rational, as used in the running remainder. -/
def effWQ (c : CampaignRow) : ℚ := (effW c : ℚ)

/-- The roulette walk of `selectCampaign`: subtract each eligible weight
from the remainder and return the first campaign at which it is `≤ 0`. -/
def rouletteWalk (r : ℚ) : List CampaignRow → Option CampaignRow
  | [] => none
  | c :: rest => if r - effWQ c ≤ 0 then some c else rouletteWalk (r - effWQ c) rest

/-- The weighted pick: the roulette walk with the last eligible campaign as
fallback when the walk is exhausted. -/
def walkPick (r : ℚ) (el : List CampaignRow) : Option CampaignRow :=
  match rouletteWalk r el with
  | some c => some c
  | none => el.getLast?

/-- `eligible.reduce((sum, c) => sum + (c.weight || 1), 0)`. -/
def totalW (el : List CampaignRow) : ℚ :=
  el.foldl (fun sum c => sum + effWQ c) 0

/-- Cumulative weight of the first `n` eligible campaigns. -/
def cumW (el : List CampaignRow) (n : Nat) : ℚ := ((el.take n).map effWQ).sum

/-- `selectCampaign` from `getInventory.ts`.  `rand` models the
`Math.random()` draw. -/
def selectCampaign (campaigns : List CampaignRow) (site : SiteRow)
    (preferCampaignId : Option String) (now : JsDate) (rand : ℚ) :
    Option CampaignRow :=
  let eligible := campaigns.filter (eligibleB site now)
  if eligible.isEmpty then none
  else
    match
      if jsTruthy preferCampaignId then
        eligible.find? (fun c => c.campaign_id == preferCampaignId.getD "")
      else none
    with
    | some preferred => some preferred
    | none => walkPick (rand * totalW eligible) eligible

/-! ## Inventory cache (`getInventory`) -/

/-- The fresh window (`TTL_MS = 60_000`). -/
def TTL_MS : Int := 60000

/-- The stale window (`STALE_MS = 300_000`). -/
def STALE_MS : Int := 300000

/-- The module-level cache entry `{ value, fetchedAt }`. -/
structure CacheEntry where
  value : Inventory
  fetchedAt : Int
deriving DecidableEq

/-- Errors thrown inside this core: a missing environment variable, or an
error surfaced by the external spreadsheet interaction. -/
inductive JsError where
  | missingEnv (name : String)
  | external (msg : String)
deriving DecidableEq

/-- Process environment: name to value, `none` for unset. -/
def Env := String → Option String

/-- `getEnv` from `getInventory.ts`: throws `Missing env var` when the value
is falsy (unset or empty). -/
def getEnvE (env : Env) (name : String) : Except JsError String :=
  let v := (env name).getD ""
  if v = "" then Except.error (JsError.missingEnv name) else Except.ok v

/-- Outcome of the external spreadsheet interaction attempted inside the
`try` block, given that the credential is present: either the two fetched
grids (each possibly `undefined`, as `res.data.values` may be) or a thrown
error (network, auth, quota, credential parse). -/
inductive FetchWorld where
  | ok (ads sites : Option (List (List String)))
  | fail (msg : String)

/-- The body of the `try` block of `getInventory`: `fetchSheetTab` resolves
the credential (`getEnv("GOOGLE_SERVICE_ACCOUNT_JSON")`, throwing when
absent) and then performs the external interaction. -/
def tryFetchInventory (env : Env) (world : FetchWorld) : Except JsError Inventory :=
  match getEnvE env "GOOGLE_SERVICE_ACCOUNT_JSON" with
  | Except.error e => Except.error e
  | Except.ok _ =>
    match world with
    | FetchWorld.fail m => Except.error (JsError.external m)
    | FetchWorld.ok ads sites => Except.ok (buildInventory (ads.getD []) (sites.getD []))

/-- The non-fresh path of `getInventory`: resolve `SPONSOR_SHEET_ID`
(outside the `try` block), then attempt the guarded fetch; on failure fall
back to a cache entry younger than the stale window, else rethrow. -/
def getInventoryMiss (cache : Option CacheEntry) (now : Int) (env : Env)
    (world : FetchWorld) : Except JsError Inventory × Option CacheEntry :=
  match getEnvE env "SPONSOR_SHEET_ID" with
  | Except.error e => (Except.error e, cache)
  | Except.ok _ =>
    match tryFetchInventory env world with
    | Except.ok inv => (Except.ok inv, some ⟨inv, now⟩)
    | Except.error e =>
      match cache with
      | some c =>
        if now - c.fetchedAt < STALE_MS then (Except.ok c.value, some c)
        else (Except.error e, cache)
      | none => (Except.error e, cache)

/-- `getInventory` from `getInventory.ts` as a state transformer on the
module-level cache: given the cache, the current time, the environment and
the outcome of the would-be external interaction, produce the returned (or
thrown) value together with the new cache. -/
def getInventory (cache : Option CacheEntry) (now : Int) (env : Env)
    (world : FetchWorld) : Except JsError Inventory × Option CacheEntry :=
  match cache with
  | some c =>
    if now - c.fetchedAt < TTL_MS then (Except.ok c.value, some c)
    else getInventoryMiss (some c) now env world
  | none => getInventoryMiss none now env world

/-! ## Sponsor query endpoint (`GET /api/sponsor`) -/

/-- The query parameters read by the endpoint (`url.searchParams.get`
returns `null` for an absent parameter). -/
structure SponsorRequest where
  siteId : Option String
  preferCampaignId : Option String

/-- The `cta` object of the response envelope. -/
structure CtaOut where
  label : String
  url : String
  type : String
deriving DecidableEq

/-- The `social` object of the response envelope (always present, with
possibly-null sub-fields). -/
structure SocialOut where
  whatsappUrl : Option String
  instagramUrl : Option String
deriving DecidableEq

/-- The denormalized `campaign` object of the response envelope. -/
structure CampaignOut where
  campaignId : String
  brandName : String
  headline : String
  subline : String
  siteUrl : String
  logoUrl : String
  cta : Option CtaOut
  social : SocialOut
deriving DecidableEq

/-- The versioned 200 JSON envelope (the optional debug object, gated by an
environment switch and absent by default, is not modelled). -/
structure SponsorBody where
  version : Nat
  siteId : String
  selectedAt : String
  sessionTtlMinutes : Nat
  frequencyCapHours : Nat
  campaign : CampaignOut
deriving DecidableEq

/-- The responses the endpoint can produce. -/
inductive SponsorResponse where
  | badRequest (body : String)
  | noContent
  | ok (body : SponsorBody)
  | serverError (error msg : String)
deriving DecidableEq

/-- `url.searchParams.get("preferCampaignId")?.trim() || undefined`. -/
def normPrefer (p : Option String) : Option String :=
  match p.map jsTrim with
  | some q => orUndef q
  | none => none

/-- The `message` string of a thrown error as serialized by the endpoint's
catch block. -/
def jsErrMessage : JsError → String
  | JsError.missingEnv n => "Missing env var: " ++ n
  | JsError.external m => m

/-- The 200 response body the endpoint builds for a selected campaign
(denormalized campaign fields, null-coalesced `cta`, always-present
`social`). -/
def sponsorBodyOf (siteId : String) (now : JsDate) (campaign : CampaignRow) :
    SponsorBody :=
  { version := 1
    siteId := siteId
    selectedAt := now.iso
    sessionTtlMinutes := 45
    frequencyCapHours := 24
    campaign := {
      campaignId := campaign.campaign_id
      brandName := campaign.brand_name
      headline := campaign.headline
      subline := campaign.subline
      siteUrl := campaign.site_url
      logoUrl := campaign.logo_url
      cta :=
        if jsTruthy campaign.cta_label then
          some {
            label := campaign.cta_label.getD ""
            url := campaign.cta_url.getD ""
            type := campaign.cta_type.getD "custom" }
        else none
      social := {
        whatsappUrl := campaign.wa_url
        instagramUrl := campaign.ig_url } } }

/-- The `GET` handler of `src/pages/api/sponsor.ts`.  `invRes` is the
outcome of its `await getInventory()` call and `rand` the `Math.random()`
draw consumed by `selectCampaign`. -/
def sponsorGET (req : SponsorRequest) (invRes : Except JsError Inventory)
    (now : JsDate) (rand : ℚ) : SponsorResponse :=
  let siteId? := req.siteId.map jsTrim
  let preferCampaignId := normPrefer req.preferCampaignId
  if ¬ jsTruthy siteId? then SponsorResponse.badRequest "Missing siteId"
  else
    let siteId := siteId?.getD ""
    match invRes with
    | Except.error e => SponsorResponse.serverError "sponsor_fetch_failed" (jsErrMessage e)
    | Except.ok inv =>
      match inv.sites.find? (fun s => s.site_id == siteId) with
      | none => SponsorResponse.noContent
      | some site =>
        if site.status ≠ Status.active then SponsorResponse.noContent
        else
          match selectCampaign inv.campaigns site preferCampaignId now rand with
          | none => SponsorResponse.noContent
          | some campaign => SponsorResponse.ok (sponsorBodyOf siteId now campaign)

/-! ## Event endpoint (`POST /api/event`) -/

/-- The de-duplication window (`DEDUPE_MS = 30_000`). -/
def DEDUPE_MS : Int := 30000

/-- The rate window (`RATE_WINDOW_MS = 60_000`). -/
def RATE_WINDOW_MS : Int := 60000

/-- The per-IP per-window maximum (` RATE_MAX = 120`). -/
def RATE_MAX_EVENTS : Nat := 120

/-- A parsed JSON body as the handler reads it: each field is the
JavaScript-`String(...)`-coerced value, `none` when absent. -/
structure EventBodyRaw where
  siteId : Option String := none
  campaignId : Option String := none
  eventType : Option String := none
  ts : Option String := none
  href : Option String := none
deriving DecidableEq

/-- The normalized `SponsorEvent` the handler builds from the body. -/
structure SponsorEvent where
  siteId : String
  campaignId : String
  eventType : String
  ts : Option String
  href : Option String
deriving DecidableEq

/-- Field normalization of the event body (`String(body?.x ?? "").trim()`;
`ts`/`href` only kept when truthy). -/
def coerceEvent (b : EventBodyRaw) : SponsorEvent :=
  { siteId := jsTrim (b.siteId.getD "")
    campaignId := jsTrim (b.campaignId.getD "")
    eventType := jsTrim (b.eventType.getD "")
    ts := if jsTruthy b.ts then b.ts else none
    href := if jsTruthy b.href then b.href else none }

/-- `keyOf` from the event endpoint: the de-duplication key tuple. -/
def keyOf (e : SponsorEvent) : String :=
  e.siteId ++ "::" ++ e.campaignId ++ "::" ++ e.eventType ++ "::" ++ e.href.getD ""

/-- `isValidEventType` from the event endpoint. -/
def isValidEventType (v : String) : Bool :=
  v ∈ ["dock_viewed", "dock_expanded", "dock_collapsed", "site_click",
       "cta_click", "social_click"]

/-- One per-IP rate entry `{ windowStart, count }`. -/
structure RateEntry where
  windowStart : Int
  count : Nat
deriving DecidableEq

/-- The two module-level maps, modelled as insertion-ordered association
lists (JavaScript `Map` iterates in insertion order and `set` on an
existing key keeps its position). -/
structure EventState where
  rate : List (String × RateEntry)
  dedupe : List (String × Int)
deriving DecidableEq

/-- `Map.get`. -/
def lookupA {α : Type} (m : List (String × α)) (k : String) : Option α :=
  (m.find? (fun p => p.1 == k)).map (fun p => p.2)

/-- `Map.set`: update in place when the key exists, else append. -/
def setA {α : Type} (m : List (String × α)) (k : String) (v : α) :
    List (String × α) :=
  if m.any (fun p => p.1 == k) then
    m.map (fun p => if p.1 == k then (k, v) else p)
  else m ++ [(k, v)]

/-- The opportunistic prune of the de-duplication map: iterate in insertion
order, delete entries older than the window, and stop as soon as the map
size drops below 3000 (the size check runs after every iteration).  The
first argument is the current map size. -/
def pruneDedupe (now : Int) : Nat → List (String × Int) → List (String × Int)
  | _, [] => []
  | size, (kk, ts) :: rest =>
    if now - ts > DEDUPE_MS then
      if size - 1 < 3000 then rest else pruneDedupe now (size - 1) rest
    else
      (kk, ts) :: (if size < 3000 then rest else pruneDedupe now size rest)

/-- One HTTP request to the event endpoint: the time (`Date.now()`), the
resolved client IP, and the JSON-parsed body (`none` when parsing threw). -/
structure EventReq where
  now : Int
  ip : String
  body : Option EventBodyRaw

/-- The log record emitted for an accepted event (the `console.log` line;
server timestamp and user-agent omitted). -/
structure LogEntry where
  ip : String
  siteId : String
  campaignId : String
  eventType : String
  href : Option String
  clientTs : Option String
deriving DecidableEq

/-- Result of one `POST` invocation: the new module state, the HTTP status,
and the log entry if one was emitted. -/
structure EventResult where
  state : EventState
  status : Nat
  logged : Option LogEntry
deriving DecidableEq

/-- The accept path of the handler, after validation and rate limiting:
de-duplicate, record, prune, log. -/
def eventAccept (rate' : List (String × RateEntry)) (dedupe : List (String × Int))
    (now : Int) (ip : String) (e : SponsorEvent) : EventResult :=
  let k := keyOf e
  let dup : Bool :=
    match lookupA dedupe k with
    | some last => decide (last ≠ 0 ∧ now - last < DEDUPE_MS)
    | none => false
  if dup then ⟨⟨rate', dedupe⟩, 204, none⟩
  else
    let d1 := setA dedupe k now
    let d2 := if d1.length > 5000 then pruneDedupe now d1.length d1 else d1
    ⟨⟨rate', d2⟩, 204,
      some ⟨ip, e.siteId, e.campaignId, e.eventType, e.href, e.ts⟩⟩

/-- The rate-limit step of the handler: the updated rate map, paired with
whether this request exceeded the per-window maximum.  A missing or
expired entry opens a fresh window `{ windowStart := now, count := 1 }`;
otherwise the count is incremented (also when the request is then
discarded) and the request is discarded when the new count exceeds
` RATE_MAX`. -/
def rateCheck (rate : List (String × RateEntry)) (now : Int) (ip : String) :
    List (String × RateEntry) × Bool :=
  match lookupA rate ip with
  | none => (setA rate ip ⟨now, 1⟩, false)
  | some r =>
    if now - r.windowStart > RATE_WINDOW_MS then (setA rate ip ⟨now, 1⟩, false)
    else (setA rate ip ⟨r.windowStart, r.count + 1⟩,
      decide (r.count + 1 > RATE_MAX_EVENTS))

/-- The `POST` handler of the event endpoint (`/api/event`). -/
def eventPOST (st : EventState) (req : EventReq) : EventResult :=
  match req.body with
  | none => ⟨st, 204, none⟩
  | some b =>
    let e := coerceEvent b
    if e.siteId = "" ∨ e.campaignId = "" ∨ e.eventType = "" ∨
        ¬ isValidEventType e.eventType then ⟨st, 204, none⟩
    else
      let rc := rateCheck st.rate req.now req.ip
      if rc.2 then ⟨⟨rc.1, st.dedupe⟩, 204, none⟩
      else eventAccept rc.1 st.dedupe req.now req.ip e

/-- Process a list of requests in order, collecting each emitted log entry
paired with the time of its request. -/
def runEvents (st : EventState) : List EventReq → EventState × List (Int × LogEntry)
  | [] => (st, [])
  | req :: rest =>
    let res := eventPOST st req
    let tail := runEvents res.state rest
    (tail.1, (match res.logged with
              | some l => [(req.now, l)]
              | none => []) ++ tail.2)

/-! ## Specification-side predicates -/

/-- The claim's date-window condition: the current UTC date string is
lexicographically within `[start_date, end_date]`, a missing bound (absent,
or coerced-to-absent empty string) being unbounded on that side. -/
def DateWindowSpec (now : JsDate) (startDate endDate : Option String) : Prop :=
  (∀ s, startDate = some s → s ≠ "" → ¬ jsLtB (todayStr now) s = true) ∧
  (∀ e, endDate = some e → e ≠ "" → ¬ jsLtB e (todayStr now) = true)

/-- The claim's eligibility predicate: active status, date window, and no
(non-empty) competitor group of the campaign appearing in the site's
blocked competitor groups. -/
def EligibleSpec (site : SiteRow) (now : JsDate) (c : CampaignRow) : Prop :=
  c.status = Status.active ∧
  DateWindowSpec now c.start_date c.end_date ∧
  ¬ ∃ g, c.competitor_group = some g ∧ g ≠ "" ∧ g ∈ site.blocked_competitor_groups

/-- The row-rejection condition as the claim states it (without the
optional-URL clauses): empty `campaign_id`, a required text field empty
after trimming, a required URL not `https://`, or a present `cta_label`
with a missing or non-https `cta_url`. -/
def rowRejectsClaimed (r : RawRow) : Prop :=
  ¬ jsTruthy (r "campaign_id") ∨
  (clampStr ((r "brand_name").getD "") 35 = "" ∨
    clampStr ((r "headline").getD "") 45 = "" ∨
    clampStr ((r "subline").getD "") 75 = "") ∨
  (¬ isHttpsUrl (jsTrim ((r "site_url").getD "")) ∨
    ¬ isHttpsUrl (jsTrim ((r "logo_url").getD ""))) ∨
  (clampStr ((r "cta_label").getD "") 18 ≠ "" ∧
    (jsTrim ((r "cta_url").getD "") = "" ∨ ¬ isHttpsUrl (jsTrim ((r "cta_url").getD ""))))

/-- The actual row-rejection condition of the code: additionally, a present
but non-https `wa_url` or `ig_url` rejects the whole row. -/
def rowRejects (r : RawRow) : Prop :=
  rowRejectsClaimed r ∨
  (jsTrim ((r "wa_url").getD "") ≠ "" ∧ ¬ isHttpsUrl (jsTrim ((r "wa_url").getD ""))) ∨
  (jsTrim ((r "ig_url").getD "") ≠ "" ∧ ¬ isHttpsUrl (jsTrim ((r "ig_url").getD "")))

/-- Build a `RawRow` from an association list (for concrete test rows). -/
def rowOf (l : List (String × String)) : RawRow :=
  fun k => (l.find? (fun p => p.1 == k)).map (fun p => p.2)

/-- Replace the two date cells of a raw row, leaving every other cell
unchanged. -/
def setDates (r : RawRow) (s e : String) : RawRow :=
  fun k => if k = "start_date" then some s else if k = "end_date" then some e else r k

/-! ## Concrete fixtures used by witnesses and counterexamples -/

/-- A fixed observation date. -/
def dateFix : JsDate := ⟨"2025-10-12T08:00:00.000Z"⟩

/-- An active site with nothing blocked. -/
def siteFix : SiteRow := ⟨"s1", Status.active, [], []⟩

/-- A weight-1 campaign. -/
def cA : CampaignRow :=
  { campaign_id := "cA", status := Status.active, weight := 1, brand_name := "A"
    headline := "HA", subline := "SA", site_url := "https://a.example"
    logo_url := "https://a.example/l.png" }

/-- A weight-3 campaign. -/
def cB : CampaignRow :=
  { campaign_id := "cB", status := Status.active, weight := 3, brand_name := "B"
    headline := "HB", subline := "SB", site_url := "https://b.example"
    logo_url := "https://b.example/l.png" }

/-- A raw campaign row that is valid in every respect except for a present,
non-https `wa_url`. -/
def rWa : RawRow := rowOf
  [("campaign_id", "c1"), ("brand_name", "Brand"), ("headline", "Head"),
   ("subline", "Sub"), ("site_url", "https://ex.example"),
   ("logo_url", "https://ex.example/logo.png"), ("wa_url", "http://wa.me/123")]

/-- A fully valid minimal raw campaign row. -/
def r10 : RawRow := rowOf
  [("campaign_id", "c1"), ("brand_name", "Brand"), ("headline", "Head"),
   ("subline", "Sub"), ("site_url", "https://ex.example"),
   ("logo_url", "https://ex.example/logo.png")]

/-- The campaign record `mapCampaign` produces for `r10`. -/
def c10 : CampaignRow :=
  { campaign_id := "c1", status := Status.active, weight := 1, brand_name := "Brand"
    headline := "Head", subline := "Sub", site_url := "https://ex.example"
    logo_url := "https://ex.example/logo.png" }

/-- The empty inventory. -/
def invFix : Inventory := ⟨[], []⟩

/-- An environment with every variable set. -/
def envAll : Env := fun _ => some "set"

/-- An environment with the credential set but the spreadsheet identifier
missing. -/
def envNoSheet : Env :=
  fun n => if n = "GOOGLE_SERVICE_ACCOUNT_JSON" then some "sa" else none

/-- An inventory holding one active site and one campaign. -/
def invC7 : Inventory := ⟨[cA], [siteFix]⟩

/-- The empty event-endpoint state. -/
def st0 : EventState := ⟨[], []⟩

/-- A valid event body. -/
def bEv : EventBodyRaw :=
  { siteId := some "s1", campaignId := some "c1", eventType := some "cta_click" }

/-- The log entry the endpoint emits for `bEv` from IP `1.2.3.4`. -/
def logEv : LogEntry := ⟨"1.2.3.4", "s1", "c1", "cta_click", none, none⟩

/-- A family of valid event bodies with pairwise distinct de-duplication
keys (the site id is a single distinct character). -/
def cexBody (j : Nat) : EventBodyRaw :=
  { siteId := some (String.singleton (Char.ofNat (65 + j)))
    campaignId := some "c", eventType := some "site_click" }

/-- 122 requests from one IP: one opens a rate window at `t = 0`, one is
accepted late in that window at `t = 59000`, and 120 more are accepted at
`t = 60001`, where the window has just expired and is replaced. -/
def cexTrace : List EventReq :=
  ⟨0, "9.9.9.9", some (cexBody 0)⟩ :: ⟨59000, "9.9.9.9", some (cexBody 1)⟩ ::
    (List.range 120).map (fun i => ⟨60001, "9.9.9.9", some (cexBody (i + 2))⟩)

/-! ## Helper lemmas -/

theorem jsTruthy_orUndef (s : String) : jsTruthy (orUndef s) = (s != "") := by
  by_cases h : s = "" <;> simp [orUndef, jsTruthy, h]

theorem orUndef_getD (s : String) : (orUndef s).getD "" = s := by
  by_cases h : s = "" <;> simp [orUndef, h]

theorem coerceWeightNum_spec (n : Int) (k : Nat) :
    coerceWeightNum (some (n, k)) =
      if qOfParsed (n, k) ≤ 0 then 1 else (round (qOfParsed (n, k))).toNat := by
  have hd : (0:ℚ) < (10:ℚ) ^ k := by positivity
  have hiff : qOfParsed (n, k) ≤ 0 ↔ n ≤ 0 := by
    unfold qOfParsed
    rw [div_le_iff₀ hd, zero_mul]
    exact Int.cast_nonpos
  by_cases hn : n ≤ 0
  · simp [coerceWeightNum, hn, hiff.2 hn]
  · have hq : ¬ qOfParsed (n, k) ≤ 0 := fun h => hn (hiff.1 h)
    simp only [coerceWeightNum, if_neg hn, if_neg hq]
    congr 1
    rw [round_eq]
    have h1 : qOfParsed (n, k) + 1 / 2 =
        ((2 * n + (10:Int) ^ k : Int) : ℚ) / ((2 * 10 ^ k : Nat) : ℚ) := by
      unfold qOfParsed
      push_cast
      field_simp
      ring
    rw [h1, Rat.floor_intCast_div_natCast]
    push_cast
    rfl

/-! ## C6: field coercion rules -/

/-- C6: field coercion during row mapping is exactly: `status` becomes
`"paused"` iff the trimmed, lower-cased input equals `"paused"`, and
`"active"` otherwise (including empty input); `weight` is parsed as a number
and defaults to `1` when not finite or `≤ 0`, otherwise is rounded to the
nearest integer (half-up, `Math.round`); string fields are trimmed, and
length-capped fields are hard-truncated to their maximum length rather than
rejected; comma-delimited list fields are split on `","`, each token
trimmed, empty tokens dropped. -/
theorem C6_field_coercions :
    (∀ v : Option String,
        asStatus v = Status.paused ↔ jsToLower (jsTrim (v.getD "")) = "paused") ∧
    (∀ v : Option String,
        asStatus v = Status.active ↔ ¬ jsToLower (jsTrim (v.getD "")) = "paused") ∧
    coerceWeightNum none = 1 ∧
    (∀ (n : Int) (k : Nat),
        coerceWeightNum (some (n, k)) =
          if qOfParsed (n, k) ≤ 0 then 1 else (round (qOfParsed (n, k))).toNat) ∧
    (∀ v : Option String,
        coerceWeight v = coerceWeightNum (jsNumber (jsTrim (v.getD "")))) ∧
    (∀ (s : String) (max : Nat),
        clampStr s max =
          if jsLen (jsTrim s) ≤ max then jsTrim s else jsSlice (jsTrim s) max) ∧
    (∀ v : Option String,
        parseCsvList v =
          ((jsSplitComma (v.getD "")).map jsTrim).filter (fun t => t != "")) := by
  refine ⟨?_, ?_, rfl, coerceWeightNum_spec, fun _ => rfl, ?_, ?_⟩
  · intro v
    unfold asStatus
    split <;> simp_all
  · intro v
    unfold asStatus
    split <;> simp_all
  · intro s max
    simp only [clampStr]
    by_cases h : jsLen (jsTrim s) > max
    · rw [if_pos h, if_neg (by omega)]
    · rw [if_neg h, if_pos (by omega)]
  · intro v
    cases v with
    | none => decide
    | some s =>
      by_cases hs : s = ""
      · subst hs; decide
      · simp [parseCsvList, jsTruthy, hs]

/-! ## C5: row validation -/

/-- C5 counterexample: a row that is valid in every respect the claim lists
(`¬ rowRejectsClaimed`), but carries a present non-https `wa_url`.  The
claim says such a row is kept with the optional field dropped; the code
drops the whole row (`mapCampaign` returns `none`). -/
theorem C5_counterexample : mapCampaign rWa = none ∧ ¬ rowRejectsClaimed rWa := by
  constructor
  · decide
  · unfold rowRejectsClaimed
    decide


theorem guard4_iff (r : RawRow) :
    (jsTruthy (orUndef (clampStr ((r "cta_label").getD "") 18)) ∧
      (¬ jsTruthy (orUndef (jsTrim ((r "cta_url").getD ""))) ∨
        ¬ isHttpsUrl ((orUndef (jsTrim ((r "cta_url").getD ""))).getD ""))) ↔
    (clampStr ((r "cta_label").getD "") 18 ≠ "" ∧
      (jsTrim ((r "cta_url").getD "") = "" ∨
        ¬ isHttpsUrl (jsTrim ((r "cta_url").getD "")))) := by
  simp [jsTruthy_orUndef, orUndef_getD, bne_iff_ne, not_ne_iff]

theorem guard5_iff (r : RawRow) :
    (jsTruthy (orUndef (jsTrim ((r "wa_url").getD ""))) ∧
      ¬ isHttpsUrl ((orUndef (jsTrim ((r "wa_url").getD ""))).getD "")) ↔
    (jsTrim ((r "wa_url").getD "") ≠ "" ∧
      ¬ isHttpsUrl (jsTrim ((r "wa_url").getD ""))) := by
  simp [jsTruthy_orUndef, orUndef_getD, bne_iff_ne]

theorem guard6_iff (r : RawRow) :
    (jsTruthy (orUndef (jsTrim ((r "ig_url").getD ""))) ∧
      ¬ isHttpsUrl ((orUndef (jsTrim ((r "ig_url").getD ""))).getD "")) ↔
    (jsTrim ((r "ig_url").getD "") ≠ "" ∧
      ¬ isHttpsUrl (jsTrim ((r "ig_url").getD ""))) := by
  simp [jsTruthy_orUndef, orUndef_getD, bne_iff_ne]

/-- C5 (amended): `mapCampaign` returns `none` exactly when `campaign_id`
is empty, a required text field is empty after trimming, `site_url` or
`logo_url` is not https, `cta_label` is present but `cta_url` is missing or
not https, **or a present `wa_url`/`ig_url` is not https** — a present but
non-https optional URL invalidates the entire row (it is not merely
dropped).  No partial record is ever synthesized. -/
theorem C5_row_validation (r : RawRow) : mapCampaign r = none ↔ rowRejects r := by
  simp only [mapCampaign]
  split_ifs with h1 h2 h3 h4 h5 h6
  · exact iff_of_true rfl (Or.inl (Or.inr (Or.inl h2)))
  · exact iff_of_true rfl (Or.inl (Or.inr (Or.inr (Or.inl h3))))
  · exact iff_of_true rfl (Or.inl (Or.inr (Or.inr (Or.inr ((guard4_iff r).1 h4)))))
  · exact iff_of_true rfl (Or.inr (Or.inl ((guard5_iff r).1 h5)))
  · exact iff_of_true rfl (Or.inr (Or.inr ((guard6_iff r).1 h6)))
  · refine iff_of_false not_false ?_
    intro hR
    rcases hR with (hc | hg2 | hg3 | hg4) | hg5 | hg6
    · exact hc h1
    · exact h2 hg2
    · exact h3 hg3
    · exact h4 ((guard4_iff r).2 hg4)
    · exact h5 ((guard5_iff r).2 hg5)
    · exact h6 ((guard6_iff r).2 hg6)
  · exact iff_of_true rfl (Or.inl (Or.inl h1))

/-! ## C10: dates are never validated -/

theorem mapCampaign_setDates (r : RawRow) (c : CampaignRow) (h : mapCampaign r = some c)
    (s e : String) :
    mapCampaign (setDates r s e) =
      some { c with start_date := orUndef (jsTrim s), end_date := orUndef (jsTrim e) } := by
  have e1 : setDates r s e "campaign_id" = r "campaign_id" := rfl
  have e2 : setDates r s e "status" = r "status" := rfl
  have e3 : setDates r s e "weight" = r "weight" := rfl
  have e4 : setDates r s e "brand_name" = r "brand_name" := rfl
  have e5 : setDates r s e "headline" = r "headline" := rfl
  have e6 : setDates r s e "subline" = r "subline" := rfl
  have e7 : setDates r s e "site_url" = r "site_url" := rfl
  have e8 : setDates r s e "logo_url" = r "logo_url" := rfl
  have e9 : setDates r s e "cta_label" = r "cta_label" := rfl
  have e10 : setDates r s e "cta_url" = r "cta_url" := rfl
  have e11 : setDates r s e "cta_type" = r "cta_type" := rfl
  have e12 : setDates r s e "wa_url" = r "wa_url" := rfl
  have e13 : setDates r s e "ig_url" = r "ig_url" := rfl
  have e14 : setDates r s e "competitor_group" = r "competitor_group" := rfl
  have e15 : setDates r s e "target_groups" = r "target_groups" := rfl
  have e16 : setDates r s e "start_date" = some s := rfl
  have e17 : setDates r s e "end_date" = some e := rfl
  simp only [mapCampaign, e1, e2, e3, e4, e5, e6, e7, e8, e9, e10, e11, e12, e13, e14, e15,
    e16, e17, Option.getD_some] at h ⊢
  split_ifs at h ⊢ with h1 h2 h3 h4 h5 h6
  all_goals (cases Option.some.inj h; rfl)

theorem isWithinDateWindow_iff (now : JsDate) (sd ed : Option String) :
    isWithinDateWindow now sd ed = true ↔ DateWindowSpec now sd ed := by
  unfold isWithinDateWindow DateWindowSpec
  rcases sd with _ | s0 <;> rcases ed with _ | e0 <;>
    split_ifs with hA hB <;>
      simp_all [jsTruthy, bne_iff_ne]

/-- C10: row mapping never validates the content of `start_date`/`end_date`.
Replacing the date cells of any accepted row by arbitrary strings (including
non-ISO garbage such as `"soon"` or `"31/12/2025"`) leaves the row accepted,
with the trimmed strings retained verbatim (an empty trimmed cell coerces to
an absent bound); eligibility is then decided purely by lexicographic string
comparison of the retained value against the current UTC date string, a
missing bound being unbounded on that side. -/
theorem C10_dates_unvalidated :
    (∀ (r : RawRow) (c : CampaignRow), mapCampaign r = some c →
      ∀ s e : String,
        mapCampaign (setDates r s e) =
          some { c with start_date := orUndef (jsTrim s),
                        end_date := orUndef (jsTrim e) }) ∧
    (∀ (now : JsDate) (sd ed : Option String),
        isWithinDateWindow now sd ed = true ↔ DateWindowSpec now sd ed) :=
  ⟨mapCampaign_setDates, isWithinDateWindow_iff⟩

/-- Witness for C10: the concrete valid row `r10` with garbage date cells
`"soon"` and `"31/12/2025"` is still accepted, the strings kept verbatim. -/
theorem C10_dates_unvalidated_witness :
    mapCampaign (setDates r10 "soon" "31/12/2025") =
      some { c10 with start_date := orUndef (jsTrim "soon"),
                      end_date := orUndef (jsTrim "31/12/2025") } :=
  C10_dates_unvalidated.1 r10 c10 (by decide) "soon" "31/12/2025"

/-! ## C2: eligibility and selection soundness -/

theorem eligibleB_iff (site : SiteRow) (now : JsDate) (c : CampaignRow) :
    eligibleB site now c = true ↔ EligibleSpec site now c := by
  simp only [eligibleB]
  by_cases h1 : c.status ≠ Status.active
  · rw [if_pos h1]
    exact iff_of_false (by simp) (fun hS => h1 hS.1)
  · rw [if_neg h1]
    by_cases h2 : isWithinDateWindow now c.start_date c.end_date = true
    · rw [if_neg (not_not.2 h2)]
      by_cases h3 : jsTruthy c.competitor_group = true ∧
          (c.competitor_group.getD "") ∈ site.blocked_competitor_groups
      · rw [if_pos h3]
        refine iff_of_false (by simp) (fun hS => hS.2.2 ?_)
        rcases hc : c.competitor_group with _ | g
        · rw [hc] at h3
          exact absurd h3.1 (by simp [jsTruthy])
        · refine ⟨g, rfl, ?_, ?_⟩
          · have hg := h3.1
            rw [hc] at hg
            simpa [jsTruthy, bne_iff_ne] using hg
          · have hm := h3.2
            rw [hc] at hm
            simpa using hm
      · rw [if_neg h3]
        refine iff_of_true rfl ⟨not_not.1 h1, (isWithinDateWindow_iff now _ _).1 h2, ?_⟩
        rintro ⟨g, hg, hne, hmem⟩
        exact h3 ⟨by simp [hg, jsTruthy, bne_iff_ne, hne], by simpa [hg] using hmem⟩
    · rw [if_pos h2]
      exact iff_of_false (by simp)
        (fun hS => h2 ((isWithinDateWindow_iff now _ _).2 hS.2.1))

theorem rouletteWalk_mem {r : ℚ} {el : List CampaignRow} {c : CampaignRow}
    (h : rouletteWalk r el = some c) : c ∈ el := by
  induction el generalizing r with
  | nil => simp [rouletteWalk] at h
  | cons a t ih =>
    simp only [rouletteWalk] at h
    split_ifs at h with hle
    · cases h
      exact List.mem_cons_self _ _
    · exact List.mem_cons_of_mem _ (ih h)

theorem walkPick_isSome {el : List CampaignRow} (h : el ≠ []) (r : ℚ) :
    (walkPick r el).isSome = true := by
  unfold walkPick
  cases hw : rouletteWalk r el with
  | some c => simp
  | none => simpa [List.getLast?_isSome] using h

theorem walkPick_mem {r : ℚ} {el : List CampaignRow} {c : CampaignRow}
    (h : walkPick r el = some c) : c ∈ el := by
  unfold walkPick at h
  cases hw : rouletteWalk r el with
  | some d =>
    rw [hw] at h
    exact (Option.some.inj h) ▸ rouletteWalk_mem hw
  | none =>
    rw [hw] at h
    obtain ⟨hne, rfl⟩ := List.mem_getLast?_eq_getLast (Option.mem_def.2 h)
    exact List.getLast_mem hne

theorem selectCampaign_unfold (campaigns : List CampaignRow) (site : SiteRow)
    (prefer : Option String) (now : JsDate) (rand : ℚ) :
    selectCampaign campaigns site prefer now rand =
      (if (campaigns.filter (eligibleB site now)).isEmpty then none
       else
        match (if jsTruthy prefer then
            (campaigns.filter (eligibleB site now)).find?
              (fun c => c.campaign_id == prefer.getD "")
          else none) with
        | some p => some p
        | none => walkPick (rand * totalW (campaigns.filter (eligibleB site now)))
            (campaigns.filter (eligibleB site now))) := rfl

theorem selectCampaign_eq_none_iff (campaigns : List CampaignRow) (site : SiteRow)
    (prefer : Option String) (now : JsDate) (rand : ℚ) :
    selectCampaign campaigns site prefer now rand = none ↔
      campaigns.filter (eligibleB site now) = [] := by
  rw [selectCampaign_unfold]
  by_cases hemp : (campaigns.filter (eligibleB site now)).isEmpty = true
  · rw [if_pos hemp]
    simp [List.isEmpty_iff.1 hemp]
  · rw [if_neg hemp]
    have hne : campaigns.filter (eligibleB site now) ≠ [] :=
      fun hc => hemp (List.isEmpty_iff.2 hc)
    cases hf : (if jsTruthy prefer then
        (campaigns.filter (eligibleB site now)).find?
          (fun c => c.campaign_id == prefer.getD "")
      else none) with
    | some p => simpa using hne
    | none =>
      constructor
      · intro hw
        change walkPick (rand * totalW (campaigns.filter (eligibleB site now)))
            (campaigns.filter (eligibleB site now)) = none at hw
        have hs := walkPick_isSome hne (rand * totalW (campaigns.filter (eligibleB site now)))
        rw [hw] at hs
        cases hs
      · intro hc
        exact absurd hc hne

theorem selectCampaign_mem {campaigns : List CampaignRow} {site : SiteRow}
    {prefer : Option String} {now : JsDate} {rand : ℚ} {c : CampaignRow}
    (h : selectCampaign campaigns site prefer now rand = some c) :
    c ∈ campaigns.filter (eligibleB site now) := by
  rw [selectCampaign_unfold] at h
  by_cases hemp : (campaigns.filter (eligibleB site now)).isEmpty = true
  · rw [if_pos hemp] at h
    exact Option.noConfusion h
  · rw [if_neg hemp] at h
    cases hf : (if jsTruthy prefer then
        (campaigns.filter (eligibleB site now)).find?
          (fun c => c.campaign_id == prefer.getD "")
      else none) with
    | some p =>
      rw [hf] at h
      cases Option.some.inj h
      by_cases hp : jsTruthy prefer = true
      · rw [if_pos hp] at hf
        exact List.mem_of_find?_eq_some hf
      · rw [if_neg hp] at hf
        exact Option.noConfusion hf
    | none =>
      rw [hf] at h
      exact walkPick_mem h

/-- C2: `selectCampaign` considers a campaign eligible iff its status is
`"active"`, the current UTC date string is lexicographically within
`[start_date, end_date]` (missing bound unbounded), and it is not the case
that the campaign's (non-empty) competitor group is a member of the site's
blocked competitor groups; it returns `none` exactly when no campaign of
the list is eligible, and any campaign it returns is an eligible member of
the list.  (A present-but-empty competitor group is JavaScript-falsy, i.e.
treated as absent, as the row mapper guarantees for all inventory rows.) -/
theorem C2_eligibility (campaigns : List CampaignRow) (site : SiteRow)
    (prefer : Option String) (now : JsDate) (rand : ℚ) :
    (∀ c, eligibleB site now c = true ↔ EligibleSpec site now c) ∧
    (selectCampaign campaigns site prefer now rand = none ↔
      ∀ c ∈ campaigns, ¬ EligibleSpec site now c) ∧
    (∀ c, selectCampaign campaigns site prefer now rand = some c →
      c ∈ campaigns ∧ EligibleSpec site now c) := by
  refine ⟨eligibleB_iff site now, ?_, ?_⟩
  · rw [selectCampaign_eq_none_iff, List.filter_eq_nil_iff]
    constructor
    · intro h c hc hS
      exact h c hc ((eligibleB_iff site now c).2 hS)
    · intro h c hc hE
      exact h c hc ((eligibleB_iff site now c).1 hE)
  · intro c hsel
    have hm := List.mem_filter.1 (selectCampaign_mem hsel)
    exact ⟨hm.1, (eligibleB_iff site now c).1 hm.2⟩

/-- Witness for C2: a concrete selection result is an eligible member. -/
theorem C2_eligibility_witness :
    cA ∈ [cA] ∧ EligibleSpec siteFix dateFix cA :=
  (C2_eligibility [cA] siteFix (some "cA") dateFix 0).2.2 cA (by decide)

/-! ## C4: preference override -/

/-- C4: if a (non-empty, i.e. truthy) `preferCampaignId` is supplied and
equals the `campaign_id` of some member of the eligible set, `selectCampaign`
returns that campaign — the first eligible one with that id — independently
of the random draw, bypassing weighting entirely; if it matches no eligible
campaign, selection falls through to exactly the ordinary weighted random
draw over the eligible set and never errors (it still returns a campaign
whenever the eligible set is non-empty). -/
theorem C4_preference (campaigns : List CampaignRow) (site : SiteRow) (now : JsDate)
    (pid : String) (hpid : pid ≠ "") :
    ((∃ x ∈ campaigns.filter (eligibleB site now), x.campaign_id = pid) →
      ∃ c ∈ campaigns.filter (eligibleB site now), c.campaign_id = pid ∧
        ∀ rand : ℚ, selectCampaign campaigns site (some pid) now rand = some c) ∧
    ((∀ x ∈ campaigns.filter (eligibleB site now), x.campaign_id ≠ pid) →
      ∀ rand : ℚ,
        selectCampaign campaigns site (some pid) now rand =
          selectCampaign campaigns site none now rand ∧
        (campaigns.filter (eligibleB site now) ≠ [] →
          (selectCampaign campaigns site (some pid) now rand).isSome = true)) := by
  have hpt : jsTruthy (some pid) = true := by simp [jsTruthy, bne_iff_ne, hpid]
  constructor
  · rintro ⟨x, hx, hid⟩
    have hne : campaigns.filter (eligibleB site now) ≠ [] := List.ne_nil_of_mem hx
    have hfind : ((campaigns.filter (eligibleB site now)).find?
        (fun c => c.campaign_id == pid)).isSome := by
      rw [List.find?_isSome]
      exact ⟨x, hx, by simp [hid]⟩
    obtain ⟨c, hc⟩ := Option.isSome_iff_exists.1 hfind
    have hb := List.find?_some hc
    refine ⟨c, List.mem_of_find?_eq_some hc, eq_of_beq hb, ?_⟩
    intro rand
    rw [selectCampaign_unfold, if_neg (fun h => hne (List.isEmpty_iff.1 h))]
    simp only [Option.getD_some]
    rw [if_pos hpt, hc]
  · intro hall rand
    have hfnone : ((campaigns.filter (eligibleB site now)).find?
        (fun c => c.campaign_id == pid)) = none := by
      rw [List.find?_eq_none]
      intro x hx
      simp [hall x hx]
    have h1 : (if jsTruthy (some pid) then
        (campaigns.filter (eligibleB site now)).find?
          (fun c => c.campaign_id == (some pid).getD "")
      else none) = none := by
      simp only [Option.getD_some]
      rw [if_pos hpt, hfnone]
    have h2 : (if jsTruthy (none : Option String) then
        (campaigns.filter (eligibleB site now)).find?
          (fun c => c.campaign_id == (none : Option String).getD "")
      else none) = none := by
      simp [jsTruthy]
    constructor
    · rw [selectCampaign_unfold, selectCampaign_unfold, h1, h2]
    · intro hne
      rw [selectCampaign_unfold, if_neg (fun h => hne (List.isEmpty_iff.1 h)), h1]
      exact walkPick_isSome hne _

/-- Witness for C4: pinning `"cA"` in a two-campaign inventory returns `cA`
for every draw. -/
theorem C4_preference_witness :
    ∃ c ∈ [cA, cB].filter (eligibleB siteFix dateFix), c.campaign_id = "cA" ∧
      ∀ rand : ℚ, selectCampaign [cA, cB] siteFix (some "cA") dateFix rand = some c :=
  (C4_preference [cA, cB] siteFix dateFix "cA" (by decide)).1 ⟨cA, by decide, rfl⟩

/-! ## C3: the weighted roulette pick -/

theorem cumW_zero (el : List CampaignRow) : cumW el 0 = 0 := by simp [cumW]

theorem cumW_cons (a : CampaignRow) (t : List CampaignRow) (n : Nat) :
    cumW (a :: t) (n + 1) = effWQ a + cumW t n := by
  simp [cumW, List.take_succ_cons]

theorem effWQ_pos (c : CampaignRow) : 0 < effWQ c := by
  unfold effWQ effW
  split_ifs with h
  · norm_num
  · exact_mod_cast Nat.pos_of_ne_zero h

theorem cumW_nonneg (el : List CampaignRow) (n : Nat) : 0 ≤ cumW el n := by
  unfold cumW
  refine List.sum_nonneg ?_
  intro x hx
  obtain ⟨c, _, rfl⟩ := List.mem_map.1 hx
  exact (effWQ_pos c).le

theorem totalW_eq_sum (el : List CampaignRow) : totalW el = (el.map effWQ).sum := by
  suffices h : ∀ a : ℚ, el.foldl (fun s c => s + effWQ c) a = a + (el.map effWQ).sum by
    simpa using h 0
  induction el with
  | nil => intro a; simp [List.foldl]
  | cons x t ih =>
    intro a
    simp only [List.foldl_cons, List.map_cons, List.sum_cons, ih]
    ring

theorem totalW_eq_cumW (el : List CampaignRow) : totalW el = cumW el el.length := by
  rw [totalW_eq_sum]
  simp [cumW, List.take_length]

theorem totalW_pos {el : List CampaignRow} (h : el ≠ []) : 0 < totalW el := by
  rw [totalW_eq_sum]
  cases el with
  | nil => exact absurd rfl h
  | cons a t =>
    have hs : 0 ≤ (t.map effWQ).sum := by
      refine List.sum_nonneg ?_
      intro x hx
      obtain ⟨c, _, rfl⟩ := List.mem_map.1 hx
      exact (effWQ_pos c).le
    have := effWQ_pos a
    simp only [List.map_cons, List.sum_cons]
    linarith

theorem cumW_succ {el : List CampaignRow} {n : Nat} (h : n < el.length) :
    cumW el (n + 1) = cumW el n + effWQ (el.get ⟨n, h⟩) := by
  unfold cumW
  rw [List.take_succ, List.map_append, List.sum_append]
  congr 1
  rw [List.getElem?_eq_getElem h]
  simp [List.get_eq_getElem]

theorem cumW_lt_succ {el : List CampaignRow} {n : Nat} (h : n < el.length) :
    cumW el n < cumW el (n + 1) := by
  rw [cumW_succ h]
  linarith [effWQ_pos (el.get ⟨n, h⟩)]

theorem cumW_mono {el : List CampaignRow} {a b : Nat} (hab : a ≤ b)
    (hb : b ≤ el.length) : cumW el a ≤ cumW el b := by
  induction b with
  | zero =>
    cases Nat.le_zero.1 hab
    exact le_refl _
  | succ m ih =>
    rcases Nat.lt_or_ge a (m + 1) with hlt | hge
    · have ham : a ≤ m := Nat.lt_succ_iff.1 hlt
      have hm : m < el.length := hb
      have h1 := ih ham (Nat.le_of_lt hm)
      have h2 := cumW_lt_succ hm
      linarith
    · have : a = m + 1 := le_antisymm hab hge
      rw [this]

theorem rouletteWalk_spec : ∀ (el : List CampaignRow) (r : ℚ), el ≠ [] →
    r ≤ cumW el el.length →
    ∃ i : Fin el.length, rouletteWalk r el = some (el.get i) ∧
      ((i.val = 0 ∧ r ≤ cumW el 1) ∨
        (0 < i.val ∧ cumW el i.val < r ∧ r ≤ cumW el (i.val + 1)))
  | [], _, hne, _ => absurd rfl hne
  | a :: t, r, _, hle => by
    simp only [rouletteWalk]
    by_cases hw : r - effWQ a ≤ 0
    · refine ⟨⟨0, by simp⟩, by rw [if_pos hw]; rfl, Or.inl ⟨rfl, ?_⟩⟩
      rw [cumW_cons, cumW_zero]
      linarith
    · rw [if_neg hw]
      push_neg at hw
      have htne : t ≠ [] := by
        rintro rfl
        rw [List.length_cons, List.length_nil, cumW_cons, cumW_zero] at hle
        linarith
      have hle' : r - effWQ a ≤ cumW t t.length := by
        rw [List.length_cons, cumW_cons] at hle
        linarith
      obtain ⟨i, hwalk, hbound⟩ := rouletteWalk_spec t (r - effWQ a) htne hle'
      refine ⟨⟨i.val + 1, Nat.succ_lt_succ i.isLt⟩, by rw [hwalk]; rfl, ?_⟩
      rcases hbound with ⟨hz, hb⟩ | ⟨hpos, hlow, hup⟩
      · right
        refine ⟨Nat.succ_pos _, ?_, ?_⟩
        · simp only [Fin.val_mk]
          rw [cumW_cons, hz, cumW_zero]
          linarith
        · simp only [Fin.val_mk]
          rw [cumW_cons, hz]
          simp only [zero_add]
          linarith
      · right
        refine ⟨Nat.succ_pos _, ?_, ?_⟩
        · simp only [Fin.val_mk]
          rw [cumW_cons]
          linarith
        · simp only [Fin.val_mk]
          rw [cumW_cons]
          linarith

theorem rouletteWalk_gt : ∀ (el : List CampaignRow) (r : ℚ),
    cumW el el.length < r → rouletteWalk r el = none
  | [], r, _ => rfl
  | a :: t, r, h => by
    rw [List.length_cons, cumW_cons] at h
    have ht := cumW_nonneg t t.length
    simp only [rouletteWalk]
    rw [if_neg (by linarith)]
    exact rouletteWalk_gt t (r - effWQ a) (by linarith)

theorem walkPick_gt (el : List CampaignRow) (r : ℚ) (h : totalW el < r) :
    walkPick r el = el.getLast? := by
  unfold walkPick
  rw [rouletteWalk_gt el r (by rw [← totalW_eq_cumW]; exact h)]

theorem selectCampaign_no_prefer (campaigns : List CampaignRow) (site : SiteRow)
    (now : JsDate) (rand : ℚ)
    (hne : campaigns.filter (eligibleB site now) ≠ []) :
    selectCampaign campaigns site none now rand =
      walkPick (rand * totalW (campaigns.filter (eligibleB site now)))
        (campaigns.filter (eligibleB site now)) := by
  rw [selectCampaign_unfold, if_neg (fun h => hne (List.isEmpty_iff.1 h))]
  rfl

theorem interval_unique {el : List CampaignRow} {r : ℚ} {i j : Fin el.length}
    (hj : (j.val = 0 ∧ r ≤ cumW el 1) ∨
      (0 < j.val ∧ cumW el j.val < r ∧ r ≤ cumW el (j.val + 1)))
    (hi : (i.val = 0 ∧ r ≤ cumW el 1) ∨
      (0 < i.val ∧ cumW el i.val < r ∧ r ≤ cumW el (i.val + 1))) :
    j = i := by
  have hup : ∀ k : Fin el.length,
      ((k.val = 0 ∧ r ≤ cumW el 1) ∨
        (0 < k.val ∧ cumW el k.val < r ∧ r ≤ cumW el (k.val + 1))) →
      r ≤ cumW el (k.val + 1) := by
    rintro k (⟨hk0, hb⟩ | ⟨_, _, hb⟩)
    · rw [hk0]
      simpa using hb
    · exact hb
  have hlow : ∀ k : Fin el.length,
      ((k.val = 0 ∧ r ≤ cumW el 1) ∨
        (0 < k.val ∧ cumW el k.val < r ∧ r ≤ cumW el (k.val + 1))) →
      0 < k.val → cumW el k.val < r := by
    rintro k (⟨hk0, _⟩ | ⟨_, hb, _⟩) hkpos
    · omega
    · exact hb
  apply Fin.ext
  rcases Nat.lt_trichotomy j.val i.val with hlt | heq | hgt
  · exfalso
    have h1 := hup j hj
    have h2 := hlow i hi (by omega)
    have h3 : cumW el (j.val + 1) ≤ cumW el i.val :=
      cumW_mono (by omega) i.isLt.le
    linarith
  · exact heq
  · exfalso
    have h1 := hup i hi
    have h2 := hlow j hj (by omega)
    have h3 : cumW el (i.val + 1) ≤ cumW el j.val :=
      cumW_mono (by omega) j.isLt.le
    linarith

/-- C3: for every non-empty eligible set, the weighted pick is: the total
is the cumulative sum of the eligible weights (`weight`, `0` falling back
to `1`); the scaled draw `rand * total` (uniform in `[0, total)` for
`rand ∈ [0, 1)`) selects the unique campaign whose cumulative-weight
interval contains it — the interval of the `j`-th eligible campaign has
length exactly its effective weight, so the fraction of draw values
selecting it is its weight over the total; the walk is exhausted only for
draws beyond the total, in which case the last eligible campaign is the
fallback; and the function never throws (it is total, and returns a
campaign whenever the eligible set is non-empty). -/
theorem C3_weighted_pick (campaigns : List CampaignRow) (site : SiteRow) (now : JsDate)
    (rand : ℚ) (el : List CampaignRow)
    (hel : el = campaigns.filter (eligibleB site now))
    (_h0 : 0 ≤ rand) (h1 : rand < 1) (hne : el ≠ []) :
    totalW el = cumW el el.length ∧
    (∀ j : Fin el.length, cumW el (j.val + 1) = cumW el j.val + effWQ (el.get j)) ∧
    (∃ i : Fin el.length,
      selectCampaign campaigns site none now rand = some (el.get i) ∧
      ((i.val = 0 ∧ rand * totalW el ≤ cumW el 1) ∨
        (0 < i.val ∧ cumW el i.val < rand * totalW el ∧
          rand * totalW el ≤ cumW el (i.val + 1))) ∧
      (∀ j : Fin el.length,
        ((j.val = 0 ∧ rand * totalW el ≤ cumW el 1) ∨
          (0 < j.val ∧ cumW el j.val < rand * totalW el ∧
            rand * totalW el ≤ cumW el (j.val + 1))) → j = i)) ∧
    (∀ r : ℚ, totalW el < r → walkPick r el = el.getLast?) ∧
    (∀ rand' : ℚ, (selectCampaign campaigns site none now rand').isSome = true) := by
  subst hel
  have htot := totalW_pos hne
  refine ⟨totalW_eq_cumW _, fun j => cumW_succ j.isLt, ?_,
    fun r h => walkPick_gt _ r h, fun rand' => ?_⟩
  · have hlt : rand * totalW (campaigns.filter (eligibleB site now)) <
        totalW (campaigns.filter (eligibleB site now)) := by
      calc rand * totalW (campaigns.filter (eligibleB site now)) <
            1 * totalW (campaigns.filter (eligibleB site now)) :=
          mul_lt_mul_of_pos_right h1 htot
        _ = totalW (campaigns.filter (eligibleB site now)) := one_mul _
    have hle : rand * totalW (campaigns.filter (eligibleB site now)) ≤
        cumW (campaigns.filter (eligibleB site now))
          (campaigns.filter (eligibleB site now)).length := by
      rw [← totalW_eq_cumW]
      exact hlt.le
    obtain ⟨i, hwalk, hbound⟩ :=
      rouletteWalk_spec (campaigns.filter (eligibleB site now)) _ hne hle
    refine ⟨i, ?_, hbound, fun j hj => interval_unique hj hbound⟩
    rw [selectCampaign_no_prefer _ _ _ _ hne]
    unfold walkPick
    rw [hwalk]
  · rw [selectCampaign_no_prefer _ _ _ _ hne]
    exact walkPick_isSome hne _

/-- Witness for C3: with eligible campaigns `[cA, cB]` and draw `1/2`, the
selection returns a campaign. -/
theorem C3_weighted_pick_witness :
    (selectCampaign [cA, cB] siteFix none dateFix (1/2)).isSome = true :=
  (C3_weighted_pick [cA, cB] siteFix dateFix (1/2) [cA, cB] (by decide) (by norm_num)
    (by norm_num) (by decide)).2.2.2.2 (1/2)

/-! ## C1: the inventory cache policy -/

theorem getInventory_some (c : CacheEntry) (now : Int) (env : Env) (world : FetchWorld) :
    getInventory (some c) now env world =
      if now - c.fetchedAt < TTL_MS then (Except.ok c.value, some c)
      else getInventoryMiss (some c) now env world := rfl

theorem getInventory_none (now : Int) (env : Env) (world : FetchWorld) :
    getInventory none now env world = getInventoryMiss none now env world := rfl

/-- C1 counterexample: with the spreadsheet identifier absent from the
environment, a cache entry 120 seconds old (well inside the 300-second
stale window), and the external fetch failing, `getInventory` throws the
`Missing env var` error instead of returning the stale cached value: the
identifier is resolved by `getEnv` *outside* the `try` block, so its error
bypasses the stale-cache fallback the claim promises. -/
theorem C1_counterexample :
    getInventory (some ⟨invFix, 0⟩) 120000 envNoSheet (FetchWorld.fail "net") =
      (Except.error (JsError.missingEnv "SPONSOR_SHEET_ID"), some ⟨invFix, 0⟩) ∧
    ((120000 : Int) - 0 < STALE_MS) ∧
    (getInventory (some ⟨invFix, 0⟩) 120000 envNoSheet (FetchWorld.fail "net")).1 ≠
      Except.ok invFix := by
  refine ⟨rfl, by decide, fun h => Except.noConfusion h⟩

/-- C1 (amended): `getInventory` follows the cache policy: a cached entry
younger than 60 seconds is returned with no external interaction; otherwise
the spreadsheet identifier is resolved first, and when it is absent that
error propagates regardless of any stale cache; otherwise a fetch is
attempted, and if it fails for any reason (including an absent credential,
which always fails the guarded fetch) while a cached entry younger than 300
seconds exists, the stale cached value is returned without throwing; the
fetch error propagates only when no cached entry exists or it is at least
300 seconds old. -/
theorem C1_cache_policy (cache : Option CacheEntry) (now : Int) (env : Env)
    (world : FetchWorld) :
    (∀ c, cache = some c → now - c.fetchedAt < TTL_MS →
      getInventory cache now env world = (Except.ok c.value, some c)) ∧
    ((∀ c, cache = some c → ¬ now - c.fetchedAt < TTL_MS) →
      (env "SPONSOR_SHEET_ID").getD "" = "" →
      getInventory cache now env world =
        (Except.error (JsError.missingEnv "SPONSOR_SHEET_ID"), cache)) ∧
    ((∀ c, cache = some c → ¬ now - c.fetchedAt < TTL_MS) →
      ∀ sid, getEnvE env "SPONSOR_SHEET_ID" = Except.ok sid →
      ∀ inv, tryFetchInventory env world = Except.ok inv →
      getInventory cache now env world = (Except.ok inv, some ⟨inv, now⟩)) ∧
    ((∀ c, cache = some c → ¬ now - c.fetchedAt < TTL_MS) →
      ∀ sid, getEnvE env "SPONSOR_SHEET_ID" = Except.ok sid →
      ∀ e, tryFetchInventory env world = Except.error e →
      (∀ c, cache = some c → now - c.fetchedAt < STALE_MS →
        getInventory cache now env world = (Except.ok c.value, some c)) ∧
      ((∀ c, cache = some c → ¬ now - c.fetchedAt < STALE_MS) →
        getInventory cache now env world = (Except.error e, cache))) ∧
    ((env "GOOGLE_SERVICE_ACCOUNT_JSON").getD "" = "" →
      tryFetchInventory env world =
        Except.error (JsError.missingEnv "GOOGLE_SERVICE_ACCOUNT_JSON")) := by
  refine ⟨?_, ?_, ?_, ?_, ?_⟩
  · rintro c rfl hf
    rw [getInventory_some, if_pos hf]
  · intro hnf hsid
    have hmiss : getInventoryMiss cache now env world =
        (Except.error (JsError.missingEnv "SPONSOR_SHEET_ID"), cache) := by
      unfold getInventoryMiss getEnvE
      simp [hsid]
    cases cache with
    | none => rw [getInventory_none]; exact hmiss
    | some c =>
      rw [getInventory_some, if_neg (hnf c rfl)]
      exact hmiss
  · intro hnf sid hsid inv hfetch
    have hmiss : getInventoryMiss cache now env world = (Except.ok inv, some ⟨inv, now⟩) := by
      unfold getInventoryMiss
      rw [hsid, hfetch]
    cases cache with
    | none => rw [getInventory_none]; exact hmiss
    | some c =>
      rw [getInventory_some, if_neg (hnf c rfl)]
      exact hmiss
  · intro hnf sid hsid e hfetch
    constructor
    · rintro c rfl hstale
      rw [getInventory_some, if_neg (hnf c rfl)]
      unfold getInventoryMiss
      rw [hsid, hfetch]
      show (if now - c.fetchedAt < STALE_MS then (Except.ok c.value, some c)
        else (Except.error e, some c)) = (Except.ok c.value, some c)
      rw [if_pos hstale]
    · intro hnstale
      cases cache with
      | none =>
        rw [getInventory_none]
        unfold getInventoryMiss
        rw [hsid, hfetch]
      | some c =>
        rw [getInventory_some, if_neg (hnf c rfl)]
        unfold getInventoryMiss
        rw [hsid, hfetch]
        show (if now - c.fetchedAt < STALE_MS then (Except.ok c.value, some c)
          else (Except.error e, some c)) = (Except.error e, some c)
        rw [if_neg (hnstale c rfl)]
  · intro hsa
    unfold tryFetchInventory getEnvE
    simp [hsa]

/-- Witness for C1: a failing fetch at cache age 120 s serves the stale
value. -/
theorem C1_cache_policy_witness :
    getInventory (some ⟨invFix, 0⟩) 120000 envAll (FetchWorld.fail "boom") =
      (Except.ok invFix, some ⟨invFix, 0⟩) :=
  ((C1_cache_policy (some ⟨invFix, 0⟩) 120000 envAll (FetchWorld.fail "boom")).2.2.2.1
    (fun c hc => by cases hc; decide) "set" rfl
    (JsError.external "boom") rfl).1 ⟨invFix, 0⟩ rfl (by decide)

/-! ## C7: the sponsor query endpoint -/

/-- C7: the sponsor query endpoint partitions requests exactly as claimed:
a missing (or blank) `siteId` yields the 400 response with no inventory
access (the result is the same for every inventory outcome, which is
universally quantified here); an unknown `siteId`, a non-active site, and a
null selection all yield the same empty 204 response; and a successful
selection yields the versioned 200 envelope in which `cta` is `null` iff
the campaign has no (truthy) `cta_label`, with `type` defaulting to
`"custom"` when `cta_type` is absent, and the `social` object always
present with the campaign's possibly-null WhatsApp/Instagram URLs. -/
theorem C7_sponsor_endpoint (req : SponsorRequest) (invRes : Except JsError Inventory)
    (now : JsDate) (rand : ℚ) :
    (¬ jsTruthy (req.siteId.map jsTrim) = true →
      sponsorGET req invRes now rand = SponsorResponse.badRequest "Missing siteId") ∧
    (∀ sid, req.siteId = some sid → jsTrim sid ≠ "" →
      ∀ inv, invRes = Except.ok inv →
      (inv.sites.find? (fun s => s.site_id == jsTrim sid) = none →
        sponsorGET req invRes now rand = SponsorResponse.noContent) ∧
      (∀ site, inv.sites.find? (fun s => s.site_id == jsTrim sid) = some site →
        (site.status ≠ Status.active →
          sponsorGET req invRes now rand = SponsorResponse.noContent) ∧
        (site.status = Status.active →
          (selectCampaign inv.campaigns site (normPrefer req.preferCampaignId) now rand =
              none →
            sponsorGET req invRes now rand = SponsorResponse.noContent) ∧
          (∀ campaign,
            selectCampaign inv.campaigns site (normPrefer req.preferCampaignId) now rand =
              some campaign →
            ∃ body, sponsorGET req invRes now rand = SponsorResponse.ok body ∧
              body.version = 1 ∧
              body.siteId = jsTrim sid ∧
              body.selectedAt = now.iso ∧
              body.campaign.campaignId = campaign.campaign_id ∧
              (body.campaign.cta = none ↔ ¬ jsTruthy campaign.cta_label = true) ∧
              (∀ cta, body.campaign.cta = some cta →
                cta.label = campaign.cta_label.getD "" ∧
                cta.url = campaign.cta_url.getD "" ∧
                cta.type = campaign.cta_type.getD "custom") ∧
              body.campaign.social.whatsappUrl = campaign.wa_url ∧
              body.campaign.social.instagramUrl = campaign.ig_url)))) := by
  constructor
  · intro hmiss
    simp only [sponsorGET]
    rw [if_pos hmiss]
  · intro sid hsid hne inv hinv
    have hmap : req.siteId.map jsTrim = some (jsTrim sid) := by rw [hsid]; rfl
    have htr : jsTruthy (req.siteId.map jsTrim) = true := by
      rw [hmap]
      simp [jsTruthy, bne_iff_ne, hne]
    have hcond : ¬ ¬ jsTruthy (req.siteId.map jsTrim) = true := not_not.2 htr
    refine ⟨?_, ?_⟩
    · intro hfind
      simp only [sponsorGET]
      rw [if_neg hcond, hinv, hmap]
      simp only [Option.getD_some]
      rw [hfind]
    · intro site hfind
      have hred : sponsorGET req invRes now rand =
          (if site.status ≠ Status.active then SponsorResponse.noContent
           else
            match selectCampaign inv.campaigns site (normPrefer req.preferCampaignId)
                now rand with
            | none => SponsorResponse.noContent
            | some campaign =>
              SponsorResponse.ok (sponsorBodyOf (jsTrim sid) now campaign)) := by
        simp only [sponsorGET]
        rw [if_neg hcond, hinv, hmap]
        simp only [Option.getD_some]
        rw [hfind]
      refine ⟨?_, ?_⟩
      · intro hpause
        rw [hred, if_pos hpause]
      · intro hact
        refine ⟨?_, ?_⟩
        · intro hsel
          rw [hred, if_neg (fun h => h hact), hsel]
        · intro campaign hsel
          refine ⟨sponsorBodyOf (jsTrim sid) now campaign, ?_, rfl, rfl, rfl, rfl, ?_, ?_, rfl, rfl⟩
          · rw [hred, if_neg (fun h => h hact), hsel]
          · by_cases hc : jsTruthy campaign.cta_label = true
            · simp [sponsorBodyOf, hc]
            · simp [sponsorBodyOf, hc]
          · intro cta hcta
            by_cases hc : jsTruthy campaign.cta_label = true
            · simp only [sponsorBodyOf, hc, if_true, if_pos] at hcta
              cases Option.some.inj hcta
              exact ⟨rfl, rfl, rfl⟩
            · simp [sponsorBodyOf, hc] at hcta

/-- Witness for C7: a concrete 200 response with a `null` `cta` and
always-present `social`. -/
theorem C7_sponsor_endpoint_witness :
    ∃ body,
      sponsorGET ⟨some "s1", some "cA"⟩ (Except.ok invC7) dateFix 0 =
        SponsorResponse.ok body ∧
      body.version = 1 ∧
      body.siteId = jsTrim "s1" ∧
      body.selectedAt = dateFix.iso ∧
      body.campaign.campaignId = cA.campaign_id ∧
      (body.campaign.cta = none ↔ ¬ jsTruthy cA.cta_label = true) ∧
      (∀ cta, body.campaign.cta = some cta →
        cta.label = cA.cta_label.getD "" ∧
        cta.url = cA.cta_url.getD "" ∧
        cta.type = cA.cta_type.getD "custom") ∧
      body.campaign.social.whatsappUrl = cA.wa_url ∧
      body.campaign.social.instagramUrl = cA.ig_url :=
  ((((C7_sponsor_endpoint ⟨some "s1", some "cA"⟩ (Except.ok invC7) dateFix 0).2
      "s1" rfl (by decide) invC7 rfl).2 siteFix (by decide)).2 rfl).2 cA (by decide)

/-! ## C9: event endpoint 204-always and de-duplication -/

theorem eventAccept_status (rate' : List (String × RateEntry)) (d : List (String × Int))
    (now : Int) (ip : String) (e : SponsorEvent) :
    (eventAccept rate' d now ip e).status = 204 := by
  simp only [eventAccept]
  split_ifs <;> rfl

theorem eventPOST_status (st : EventState) (req : EventReq) :
    (eventPOST st req).status = 204 := by
  rcases req with ⟨now, ip, body⟩
  cases body with
  | none => rfl
  | some b =>
    simp only [eventPOST]
    split_ifs with hv hrc
    · rfl
    · rfl
    · exact eventAccept_status _ _ _ _ _

theorem setA_key_all {α : Type} {m : List (String × α)} {k : String} {v : α} :
    ∀ p ∈ setA m k v, p.1 = k → p = (k, v) := by
  intro p hp hk
  unfold setA at hp
  split_ifs at hp with hany
  · obtain ⟨q, hq, hpq⟩ := List.mem_map.1 hp
    by_cases hqk : (q.1 == k) = true
    · rw [if_pos hqk] at hpq
      exact hpq.symm
    · rw [if_neg hqk] at hpq
      subst hpq
      exact absurd (by simp [hk]) hqk
  · rcases List.mem_append.1 hp with hm | hs
    · exact absurd (List.any_eq_true.2 ⟨p, hm, by simp [hk]⟩) hany
    · simpa using hs

theorem setA_mem {α : Type} (m : List (String × α)) (k : String) (v : α) :
    (k, v) ∈ setA m k v := by
  unfold setA
  split_ifs with hany
  · obtain ⟨q, hq, hqk⟩ := List.any_eq_true.1 hany
    refine List.mem_map.2 ⟨q, hq, ?_⟩
    rw [if_pos hqk]
  · exact List.mem_append.2 (Or.inr (by simp))

theorem pruneDedupe_subset (now : Int) :
    ∀ (sz : Nat) (m : List (String × Int)), ∀ p ∈ pruneDedupe now sz m, p ∈ m
  | _, [], p, hp => by simp [pruneDedupe] at hp
  | sz, (kk, ts) :: rest, p, hp => by
    simp only [pruneDedupe] at hp
    split_ifs at hp with hold hsmall hsmall2
    · exact List.mem_cons_of_mem _ hp
    · exact List.mem_cons_of_mem _ (pruneDedupe_subset now (sz - 1) rest p hp)
    · rcases List.mem_cons.1 hp with h | h
      · exact h ▸ List.mem_cons_self _ _
      · exact List.mem_cons_of_mem _ h
    · rcases List.mem_cons.1 hp with h | h
      · exact h ▸ List.mem_cons_self _ _
      · exact List.mem_cons_of_mem _ (pruneDedupe_subset now sz rest p h)

theorem pruneDedupe_keeps (now : Int) :
    ∀ (sz : Nat) (m : List (String × Int)) (kk : String) (ts : Int),
      (kk, ts) ∈ m → ¬ now - ts > DEDUPE_MS → (kk, ts) ∈ pruneDedupe now sz m
  | _, [], kk, ts, hm, _ => by simp at hm
  | sz, (k0, t0) :: rest, kk, ts, hm, hrecent => by
    simp only [pruneDedupe]
    rcases List.mem_cons.1 hm with h | h
    · injection h with h1 h2
      subst h1
      subst h2
      rw [if_neg hrecent]
      split_ifs with hsz
      · exact List.mem_cons_self _ _
      · exact List.mem_cons_self _ _
    · split_ifs with hold hsmall hsmall2
      · exact h
      · exact pruneDedupe_keeps now (sz - 1) rest kk ts h hrecent
      · exact List.mem_cons_of_mem _ h
      · exact List.mem_cons_of_mem _ (pruneDedupe_keeps now sz rest kk ts h hrecent)

theorem lookupA_eq_of_unique {m : List (String × Int)} {k : String} {t : Int}
    (hall : ∀ p ∈ m, p.1 = k → p = (k, t)) (hmem : (k, t) ∈ m) :
    lookupA m k = some t := by
  induction m with
  | nil => simp at hmem
  | cons p rest ih =>
    by_cases hk : p.1 = k
    · have hpk := hall p (List.mem_cons_self _ _) hk
      subst hpk
      simp [lookupA, List.find?]
    · have hne : (p.1 == k) = false := by simp [hk]
      have hmem' : (k, t) ∈ rest := by
        rcases List.mem_cons.1 hmem with h | h
        · exact absurd (by rw [← h]) hk
        · exact h
      have := ih (fun q hq hqk => hall q (List.mem_cons_of_mem _ hq) hqk) hmem'
      simpa [lookupA, List.find?, hne] using this

theorem eventAccept_logged_dedupe {rate' : List (String × RateEntry)}
    {d : List (String × Int)} {now : Int} {ip : String} {e : SponsorEvent}
    {l : LogEntry} (h : (eventAccept rate' d now ip e).logged = some l) :
    lookupA (eventAccept rate' d now ip e).state.dedupe (keyOf e) = some now := by
  have hall1 : ∀ p ∈ setA d (keyOf e) now, p.1 = keyOf e → p = (keyOf e, now) :=
    setA_key_all
  have hmem1 : (keyOf e, now) ∈ setA d (keyOf e) now := setA_mem d (keyOf e) now
  simp only [eventAccept] at h ⊢
  split_ifs at h ⊢ with hdup hbig
  all_goals solve
    | (exfalso; simp at h)
    | (show lookupA (pruneDedupe now (setA d (keyOf e) now).length (setA d (keyOf e) now))
          (keyOf e) = some now
       exact lookupA_eq_of_unique
         (fun p hp hk => hall1 p (pruneDedupe_subset now _ _ p hp) hk)
         (pruneDedupe_keeps now _ _ _ _ hmem1 (by unfold DEDUPE_MS; omega)))
    | (show lookupA (setA d (keyOf e) now) (keyOf e) = some now
       exact lookupA_eq_of_unique hall1 hmem1)

theorem eventPOST_logged_cases (st : EventState) (req : EventReq) (b : EventBodyRaw)
    (hb : req.body = some b) :
    (eventPOST st req).logged = none ∨
    ∃ rate', eventPOST st req =
      eventAccept rate' st.dedupe req.now req.ip (coerceEvent b) := by
  rcases req with ⟨now, ip, body⟩
  cases hb
  simp only [eventPOST]
  split_ifs with hv hrc
  · exact Or.inl rfl
  · exact Or.inl rfl
  · exact Or.inr ⟨_, rfl⟩

theorem eventPOST_logged_dedupe {st : EventState} {req : EventReq} {b : EventBodyRaw}
    {l : LogEntry} (hb : req.body = some b)
    (h : (eventPOST st req).logged = some l) :
    lookupA (eventPOST st req).state.dedupe (keyOf (coerceEvent b)) = some req.now := by
  rcases eventPOST_logged_cases st req b hb with hnone | ⟨rate', heq⟩
  · rw [h] at hnone
    cases hnone
  · rw [heq] at h ⊢
    exact eventAccept_logged_dedupe h

theorem eventAccept_dup {rate' : List (String × RateEntry)} {d : List (String × Int)}
    {now t : Int} {ip : String} {e : SponsorEvent}
    (hl : lookupA d (keyOf e) = some t) (ht0 : t ≠ 0) (hwin : now - t < DEDUPE_MS) :
    (eventAccept rate' d now ip e).logged = none := by
  simp only [eventAccept, hl]
  split_ifs with hdup
  · rfl
  · exfalso
    apply hdup
    first
      | exact ⟨ht0, hwin⟩
      | exact decide_eq_true ⟨ht0, hwin⟩

theorem eventPOST_dup {st : EventState} {t t' : Int} {ip' : String} {b' : EventBodyRaw}
    (hl : lookupA st.dedupe (keyOf (coerceEvent b')) = some t)
    (ht0 : t ≠ 0) (hwin : t' - t < DEDUPE_MS) :
    (eventPOST st ⟨t', ip', some b'⟩).logged = none := by
  rcases eventPOST_logged_cases st ⟨t', ip', some b'⟩ b' rfl with hnone | ⟨rate', heq⟩
  · exact hnone
  · rw [heq]
    exact eventAccept_dup hl ht0 hwin

/-- C9: the event endpoint responds 204 to every request — malformed JSON
(`body = none`), invalid fields, rate-limited, duplicate and accepted
events alike; no 400 or 500 is ever emitted.  And two submissions of an
identical event tuple (same coerced `siteId`, `campaignId`, `eventType`,
`href`; client timestamps may differ) within the 30-second window produce
exactly one log entry: when the first is logged, the second is silently
discarded with the same 204 and no log entry.  (`0 < t` reflects that
`Date.now()` is positive: a stored timestamp is ANDed through JavaScript
truthiness by the dedupe check, so the literal time `0` would not count.) -/
theorem C9_event_endpoint :
    (∀ (st : EventState) (req : EventReq), (eventPOST st req).status = 204) ∧
    (∀ (st : EventState) (t t' : Int) (ip ip' : String) (b b' : EventBodyRaw)
        (l : LogEntry),
      (coerceEvent b').siteId = (coerceEvent b).siteId →
      (coerceEvent b').campaignId = (coerceEvent b).campaignId →
      (coerceEvent b').eventType = (coerceEvent b).eventType →
      (coerceEvent b').href = (coerceEvent b).href →
      0 < t → t' - t < DEDUPE_MS →
      (eventPOST st ⟨t, ip, some b⟩).logged = some l →
      (eventPOST (eventPOST st ⟨t, ip, some b⟩).state ⟨t', ip', some b'⟩).logged = none ∧
      (eventPOST (eventPOST st ⟨t, ip, some b⟩).state ⟨t', ip', some b'⟩).status = 204) := by
  refine ⟨eventPOST_status, ?_⟩
  intro st t t' ip ip' b b' l h1 h2 h3 h4 ht hwin hlog
  have hkey : keyOf (coerceEvent b') = keyOf (coerceEvent b) := by
    unfold keyOf
    rw [h1, h2, h3, h4]
  have hded := eventPOST_logged_dedupe rfl hlog
  refine ⟨?_, eventPOST_status _ _⟩
  exact eventPOST_dup (by rw [hkey]; exact hded) (by omega) hwin

/-- Witness for C9: a concrete duplicate within 19 seconds (even from a
different IP) is not logged and still gets a 204. -/
theorem C9_event_endpoint_witness :
    (eventPOST (eventPOST st0 ⟨1000, "1.2.3.4", some bEv⟩).state
        ⟨20000, "5.6.7.8", some bEv⟩).logged = none ∧
    (eventPOST (eventPOST st0 ⟨1000, "1.2.3.4", some bEv⟩).state
        ⟨20000, "5.6.7.8", some bEv⟩).status = 204 :=
  C9_event_endpoint.2 st0 1000 20000 "1.2.3.4" "5.6.7.8" bEv bEv logEv
    rfl rfl rfl rfl (by decide) (by decide) (by decide)

theorem lookupA_setA_self {α : Type} (m : List (String × α)) (k : String) (v : α) :
    lookupA (setA m k v) k = some v := by
  unfold setA
  split_ifs with hany
  · induction m with
    | nil => simp at hany
    | cons p rest ih =>
      simp only [List.map_cons, lookupA, List.find?]
      by_cases hpk : (p.1 == k) = true
      · rw [if_pos hpk]
        simp
      · rw [if_neg hpk]
        have hpk' : (p.1 == k) = false := by simpa using hpk
        simp only [hpk', cond_false]
        have hrest : rest.any (fun p => p.1 == k) = true := by
          rcases List.any_eq_true.1 hany with ⟨q, hq, hqk⟩
          rcases List.mem_cons.1 hq with h | h
          · exact absurd (h ▸ hqk) hpk
          · exact List.any_eq_true.2 ⟨q, h, hqk⟩
        simpa [lookupA] using ih hrest
  · have hnone : m.find? (fun p => p.1 == k) = none :=
      List.find?_eq_none.2 (fun x hx hpx => hany (List.any_eq_true.2 ⟨x, hx, hpx⟩))
    simp [lookupA, List.find?_append, hnone, List.find?]

theorem lookupA_map_set {α : Type} (k : String) (v : α) (k' : String) (h : k' ≠ k) :
    ∀ m : List (String × α),
      lookupA (m.map (fun p => if p.1 == k then (k, v) else p)) k' = lookupA m k'
  | [] => rfl
  | p :: rest => by
    simp only [List.map_cons, lookupA, List.find?]
    by_cases hpk : (p.1 == k) = true
    · rw [if_pos hpk]
      have h1 : (k == k') = false := by simp [Ne.symm h]
      have h2 : (p.1 == k') = false := by
        have := eq_of_beq hpk
        simp [this, Ne.symm h]
      simp only [h1, h2, cond_false]
      simpa [lookupA] using lookupA_map_set k v k' h rest
    · rw [if_neg hpk]
      by_cases hpk' : (p.1 == k') = true
      · simp [hpk']
      · have h2 : (p.1 == k') = false := by simpa using hpk'
        simp only [h2, cond_false]
        simpa [lookupA] using lookupA_map_set k v k' h rest

theorem lookupA_setA_ne {α : Type} (m : List (String × α)) (k : String) (v : α)
    (k' : String) (h : k' ≠ k) :
    lookupA (setA m k v) k' = lookupA m k' := by
  unfold setA
  split_ifs with hany
  · exact lookupA_map_set k v k' h m
  · have h1 : ((k, v).1 == k') = false := by simp [Ne.symm h]
    simp [lookupA, List.find?_append, h1, List.find?]

theorem rateCheck_noEntry (rate : List (String × RateEntry)) (now : Int) (ip : String)
    (hl : lookupA rate ip = none) :
    rateCheck rate now ip = (setA rate ip ⟨now, 1⟩, false) := by
  unfold rateCheck
  rw [hl]

theorem rateCheck_expired {rate : List (String × RateEntry)} {now : Int} {ip : String}
    {r : RateEntry} (hl : lookupA rate ip = some r)
    (hexp : now - r.windowStart > RATE_WINDOW_MS) :
    rateCheck rate now ip = (setA rate ip ⟨now, 1⟩, false) := by
  unfold rateCheck
  rw [hl]
  show (if now - r.windowStart > RATE_WINDOW_MS then (setA rate ip ⟨now, 1⟩, false)
    else (setA rate ip ⟨r.windowStart, r.count + 1⟩,
      decide (r.count + 1 > RATE_MAX_EVENTS))) = (setA rate ip ⟨now, 1⟩, false)
  rw [if_pos hexp]

theorem rateCheck_within {rate : List (String × RateEntry)} {now : Int} {ip : String}
    {r : RateEntry} (hl : lookupA rate ip = some r)
    (hexp : ¬ now - r.windowStart > RATE_WINDOW_MS) :
    rateCheck rate now ip = (setA rate ip ⟨r.windowStart, r.count + 1⟩,
      decide (r.count + 1 > RATE_MAX_EVENTS)) := by
  unfold rateCheck
  rw [hl]
  show (if now - r.windowStart > RATE_WINDOW_MS then (setA rate ip ⟨now, 1⟩, false)
    else (setA rate ip ⟨r.windowStart, r.count + 1⟩,
      decide (r.count + 1 > RATE_MAX_EVENTS))) =
    (setA rate ip ⟨r.windowStart, r.count + 1⟩, decide (r.count + 1 > RATE_MAX_EVENTS))
  rw [if_neg hexp]

theorem eventAccept_rate (rate' : List (String × RateEntry)) (d : List (String × Int))
    (now : Int) (ip : String) (e : SponsorEvent) :
    (eventAccept rate' d now ip e).state.rate = rate' := by
  simp only [eventAccept]
  split_ifs <;> rfl

theorem eventAccept_logged_ip {rate' : List (String × RateEntry)} {d : List (String × Int)}
    {now : Int} {ip : String} {e : SponsorEvent} {l : LogEntry}
    (h : (eventAccept rate' d now ip e).logged = some l) : l.ip = ip := by
  simp only [eventAccept] at h
  split_ifs at h
  all_goals solve
    | (exfalso; simp at h)
    | (cases Option.some.inj h; rfl)

theorem eventPOST_cases (st : EventState) (req : EventReq) :
    (eventPOST st req = ⟨st, 204, none⟩) ∨
    (∃ r, lookupA st.rate req.ip = some r ∧ ¬ req.now - r.windowStart > RATE_WINDOW_MS ∧
      r.count + 1 > RATE_MAX_EVENTS ∧
      eventPOST st req =
        ⟨⟨setA st.rate req.ip ⟨r.windowStart, r.count + 1⟩, st.dedupe⟩, 204, none⟩) ∨
    (∃ e rate', eventPOST st req = eventAccept rate' st.dedupe req.now req.ip e ∧
      ((lookupA st.rate req.ip = none ∧ rate' = setA st.rate req.ip ⟨req.now, 1⟩) ∨
       (∃ r, lookupA st.rate req.ip = some r ∧ req.now - r.windowStart > RATE_WINDOW_MS ∧
         rate' = setA st.rate req.ip ⟨req.now, 1⟩) ∨
       (∃ r, lookupA st.rate req.ip = some r ∧ ¬ req.now - r.windowStart > RATE_WINDOW_MS ∧
         ¬ r.count + 1 > RATE_MAX_EVENTS ∧
         rate' = setA st.rate req.ip ⟨r.windowStart, r.count + 1⟩))) := by
  rcases req with ⟨now, ip, body⟩
  cases body with
  | none => exact Or.inl rfl
  | some b =>
    simp only [eventPOST]
    split_ifs with hv hrc
    · exact Or.inl rfl
    · cases hl : lookupA st.rate ip with
      | none =>
        rw [rateCheck_noEntry st.rate now ip hl] at hrc
        simp at hrc
      | some r =>
        by_cases hexp : now - r.windowStart > RATE_WINDOW_MS
        · rw [rateCheck_expired hl hexp] at hrc
          simp at hrc
        · rw [rateCheck_within hl hexp] at hrc
          refine Or.inr (Or.inl ⟨r, rfl, hexp, by simpa using hrc, ?_⟩)
          rw [rateCheck_within hl hexp]
    · cases hl : lookupA st.rate ip with
      | none =>
        refine Or.inr (Or.inr ⟨coerceEvent b, setA st.rate ip ⟨now, 1⟩, ?_, Or.inl ⟨rfl, rfl⟩⟩)
        rw [rateCheck_noEntry st.rate now ip hl]
      | some r =>
        by_cases hexp : now - r.windowStart > RATE_WINDOW_MS
        · refine Or.inr (Or.inr ⟨coerceEvent b, setA st.rate ip ⟨now, 1⟩, ?_, Or.inr (Or.inl ⟨r, rfl, hexp, rfl⟩)⟩)
          rw [rateCheck_expired hl hexp]
        · rw [rateCheck_within hl hexp] at hrc
          refine Or.inr (Or.inr ⟨coerceEvent b, setA st.rate ip ⟨r.windowStart, r.count + 1⟩, ?_, Or.inr (Or.inr ⟨r, rfl, hexp, by simpa using hrc, rfl⟩)⟩)
          rw [rateCheck_within hl hexp]

theorem runEvents_rate_bound :
    ∀ (trace : List EventReq) (st : EventState) (ip : String) (t0 : Int),
      (∀ r, lookupA st.rate ip = some r →
        t0 ≤ r.windowStart ∧ r.windowStart ≤ t0 + RATE_WINDOW_MS) →
      (∀ req ∈ trace, req.ip = ip → t0 ≤ req.now ∧ req.now ≤ t0 + RATE_WINDOW_MS) →
      ((runEvents st trace).2.filter (fun p => p.2.ip == ip)).length ≤
        RATE_MAX_EVENTS - ((lookupA st.rate ip).map RateEntry.count).getD 0
  | [], st, ip, t0, hinv, htimes => by simp [runEvents]
  | req :: rest, st, ip, t0, hinv, htimes => by
    have htimes' : ∀ q ∈ rest, q.ip = ip → t0 ≤ q.now ∧ q.now ≤ t0 + RATE_WINDOW_MS :=
      fun q hq => htimes q (List.mem_cons_of_mem _ hq)
    simp only [runEvents, List.filter_append, List.length_append]
    rcases eventPOST_cases st req with hA | ⟨r, hl, hexp, hmax, hB⟩ | ⟨e, rate', hC, hsub⟩
    · rw [hA]
      simpa using runEvents_rate_bound rest st ip t0 hinv htimes'
    · rw [hB]
      by_cases hip : req.ip = ip
      · rw [hip] at hl
        have hlook : lookupA (setA st.rate req.ip ⟨r.windowStart, r.count + 1⟩) ip =
            some ⟨r.windowStart, r.count + 1⟩ := by
          rw [hip]
          exact lookupA_setA_self _ _ _
        have hinv' : ∀ r', lookupA (setA st.rate req.ip ⟨r.windowStart, r.count + 1⟩) ip =
            some r' → t0 ≤ r'.windowStart ∧ r'.windowStart ≤ t0 + RATE_WINDOW_MS := by
          intro r' h
          rw [hlook] at h
          cases Option.some.inj h
          exact hinv r hl
        have hrest := runEvents_rate_bound rest
          ⟨setA st.rate req.ip ⟨r.windowStart, r.count + 1⟩, st.dedupe⟩ ip t0 hinv' htimes'
        simp only [hlook, Option.map_some', Option.getD_some] at hrest
        simp only [hl, Option.map_some', Option.getD_some, List.filter_nil,
          List.length_nil]
        omega
      · have hlook : lookupA (setA st.rate req.ip ⟨r.windowStart, r.count + 1⟩) ip =
            lookupA st.rate ip :=
          lookupA_setA_ne _ _ _ _ (fun h => hip h.symm)
        have hinv' : ∀ r', lookupA (setA st.rate req.ip ⟨r.windowStart, r.count + 1⟩) ip =
            some r' → t0 ≤ r'.windowStart ∧ r'.windowStart ≤ t0 + RATE_WINDOW_MS := by
          intro r' h
          rw [hlook] at h
          exact hinv r' h
        have hrest := runEvents_rate_bound rest
          ⟨setA st.rate req.ip ⟨r.windowStart, r.count + 1⟩, st.dedupe⟩ ip t0 hinv' htimes'
        simp only [hlook] at hrest
        simpa using hrest
    · rw [hC]
      have hrate := eventAccept_rate rate' st.dedupe req.now req.ip e
      by_cases hip : req.ip = ip
      · rcases hsub with ⟨hl, hrf⟩ | ⟨r, hl, hexprd, hrf⟩ | ⟨r, hl, hexp, hmax, hrf⟩
        · -- fresh window
          rw [hip] at hl
          have hlook : lookupA rate' ip = some ⟨req.now, 1⟩ := by
            rw [hrf, hip]
            exact lookupA_setA_self _ _ _
          have hinv' : ∀ r', lookupA (eventAccept rate' st.dedupe req.now req.ip e).state.rate
              ip = some r' → t0 ≤ r'.windowStart ∧ r'.windowStart ≤ t0 + RATE_WINDOW_MS := by
            intro r' h
            rw [hrate, hlook] at h
            cases Option.some.inj h
            exact htimes req (List.mem_cons_self _ _) hip
          have hrest := runEvents_rate_bound rest
            (eventAccept rate' st.dedupe req.now req.ip e).state ip t0 hinv' htimes'
          simp only [hrate, hlook, Option.map_some', Option.getD_some] at hrest
          have hhead : ((match (eventAccept rate' st.dedupe req.now req.ip e).logged with
              | some l => [(req.now, l)]
              | none => []).filter (fun p : Int × LogEntry => p.2.ip == ip)).length ≤ 1 := by
            cases hlog : (eventAccept rate' st.dedupe req.now req.ip e).logged with
            | none => simp
            | some l =>
              calc ([(req.now, l)].filter (fun p => p.2.ip == ip)).length ≤
                  [(req.now, l)].length := List.length_filter_le _ _
                _ = 1 := rfl
          simp only [hl, Option.map_none', Option.getD_none]
          unfold RATE_MAX_EVENTS at hrest ⊢
          omega
        · -- expired window: impossible inside the time bounds
          exfalso
          rw [hip] at hl
          obtain ⟨hws1, hws2⟩ := hinv r hl
          obtain ⟨hn1, hn2⟩ := htimes req (List.mem_cons_self _ _) hip
          unfold RATE_WINDOW_MS at hexprd hws2 hn2
          omega
        · -- counted within the window
          rw [hip] at hl
          have hlook : lookupA rate' ip = some ⟨r.windowStart, r.count + 1⟩ := by
            rw [hrf, hip]
            exact lookupA_setA_self _ _ _
          have hinv' : ∀ r', lookupA (eventAccept rate' st.dedupe req.now req.ip e).state.rate
              ip = some r' → t0 ≤ r'.windowStart ∧ r'.windowStart ≤ t0 + RATE_WINDOW_MS := by
            intro r' h
            rw [hrate, hlook] at h
            cases Option.some.inj h
            exact hinv r hl
          have hrest := runEvents_rate_bound rest
            (eventAccept rate' st.dedupe req.now req.ip e).state ip t0 hinv' htimes'
          simp only [hrate, hlook, Option.map_some', Option.getD_some] at hrest
          have hhead : ((match (eventAccept rate' st.dedupe req.now req.ip e).logged with
              | some l => [(req.now, l)]
              | none => []).filter (fun p : Int × LogEntry => p.2.ip == ip)).length ≤ 1 := by
            cases hlog : (eventAccept rate' st.dedupe req.now req.ip e).logged with
            | none => simp
            | some l =>
              calc ([(req.now, l)].filter (fun p => p.2.ip == ip)).length ≤
                  [(req.now, l)].length := List.length_filter_le _ _
                _ = 1 := rfl
          simp only [hl, Option.map_some', Option.getD_some]
          have hcnt : r.count + 1 ≤ RATE_MAX_EVENTS := by
            unfold RATE_MAX_EVENTS at hmax ⊢
            omega
          unfold RATE_MAX_EVENTS at hrest hcnt ⊢
          omega
      · -- another client's request leaves this IP's budget untouched
        have hne : ip ≠ req.ip := fun h => hip h.symm
        have hlook : lookupA rate' ip = lookupA st.rate ip := by
          rcases hsub with ⟨_, hrf⟩ | ⟨r, _, _, hrf⟩ | ⟨r, _, _, _, hrf⟩ <;>
            (rw [hrf]; exact lookupA_setA_ne _ _ _ _ hne)
        have hinv' : ∀ r', lookupA (eventAccept rate' st.dedupe req.now req.ip e).state.rate
            ip = some r' → t0 ≤ r'.windowStart ∧ r'.windowStart ≤ t0 + RATE_WINDOW_MS := by
          intro r' h
          rw [hrate, hlook] at h
          exact hinv r' h
        have hrest := runEvents_rate_bound rest
          (eventAccept rate' st.dedupe req.now req.ip e).state ip t0 hinv' htimes'
        simp only [hrate, hlook] at hrest
        have hhead : ((match (eventAccept rate' st.dedupe req.now req.ip e).logged with
            | some l => [(req.now, l)]
            | none => []).filter (fun p : Int × LogEntry => p.2.ip == ip)).length = 0 := by
          cases hlog : (eventAccept rate' st.dedupe req.now req.ip e).logged with
          | none => simp
          | some l =>
            have hlip : l.ip = req.ip := eventAccept_logged_ip hlog
            have hbeq : (req.ip == ip) = false := beq_eq_false_iff_ne.mpr hip
            simp [List.filter, hlip, hbeq]
        omega

/-- C8 (amended).  The event endpoint rate-limits per IP with a FIXED
60-second window, not a sliding one: starting from a state with no rate
entry for `ip`, any sequence of requests whose `ip`-requests all fall
inside one window interval `[t0, t0 + 60000]` yields at most
`RATE_MAX = 120` log entries for that IP; and a request that arrives
while its IP's current window holds a count already at the maximum is
silently discarded: the handler still answers 204 and logs nothing. -/
theorem C8_fixed_window (trace : List EventReq) (st : EventState) (ip : String) (t0 : Int)
    (hfresh : lookupA st.rate ip = none)
    (htimes : ∀ req ∈ trace, req.ip = ip → t0 ≤ req.now ∧ req.now ≤ t0 + RATE_WINDOW_MS) :
    ((runEvents st trace).2.filter (fun p => p.2.ip == ip)).length ≤ RATE_MAX_EVENTS ∧
    (∀ (st' : EventState) (req : EventReq) (r : RateEntry),
      lookupA st'.rate req.ip = some r →
      ¬ req.now - r.windowStart > RATE_WINDOW_MS →
      r.count + 1 > RATE_MAX_EVENTS →
      (eventPOST st' req).status = 204 ∧ (eventPOST st' req).logged = none) := by
  constructor
  · have hinv : ∀ r, lookupA st.rate ip = some r →
        t0 ≤ r.windowStart ∧ r.windowStart ≤ t0 + RATE_WINDOW_MS := by
      intro r h
      rw [hfresh] at h
      exact absurd h (by simp)
    have hb := runEvents_rate_bound trace st ip t0 hinv htimes
    simp only [hfresh, Option.map_none', Option.getD_none, Nat.sub_zero] at hb
    exact hb
  · intro st' req r hl hwin hover
    rcases eventPOST_cases st' req with hA | ⟨r', hl', _, _, hB⟩ | ⟨e, rate', hC, hsub⟩
    · rw [hA]
      exact ⟨rfl, rfl⟩
    · rw [hB]
      exact ⟨rfl, rfl⟩
    · exfalso
      rcases hsub with ⟨hl', _⟩ | ⟨r', hl', hexp, _⟩ | ⟨r', hl', hwin', hmax', _⟩
      · rw [hl] at hl'
        exact absurd hl' (by simp)
      · rw [hl] at hl'
        cases Option.some.inj hl'
        exact hwin hexp
      · rw [hl] at hl'
        cases Option.some.inj hl'
        exact hmax' hover

/-- Witness for C8: with a fresh state, a single request at `t = 5` inside
the window `[0, 60000]` produces at most 120 logged events for its IP. -/
theorem C8_fixed_window_witness :
    ((runEvents st0 [⟨5, "9.9.9.9", some bEv⟩]).2.filter
      (fun p => p.2.ip == "9.9.9.9")).length ≤ RATE_MAX_EVENTS :=
  (C8_fixed_window [⟨5, "9.9.9.9", some bEv⟩] st0 "9.9.9.9" 0 rfl (by decide)).1

set_option maxHeartbeats 4000000 in
set_option maxRecDepth 100000 in
/-- Counterexample to C8 as stated: the limiter is NOT sliding.  122
requests from IP `9.9.9.9` — one at `t = 0`, one at `t = 59000`, then 120
at `t = 60001` (where the fixed window opened at `t = 0` has just expired
and is replaced by a fresh one) — produce 121 logged events inside the
1001 ms interval `[59000, 60001]`, which lies within a single 60000 ms
span; a sliding 60-second window would allow at most 120. -/
theorem C8_counterexample :
    ((runEvents st0 cexTrace).2.filter
      (fun p => p.2.ip == "9.9.9.9" && decide (59000 ≤ p.1) && decide (p.1 ≤ 60001))).length
      = 121 ∧
    ((60001 : Int) - 59000 ≤ RATE_WINDOW_MS) ∧ 120 < 121 := by
  refine ⟨by decide, by decide, by decide⟩
